import Mathlib

/-!
# K-means model (`src/main.cpp`): shallow embedding and verified properties

`float` values are numbers of an ordered field `R`, and the arithmetic of the source is a
parameter `fl : FloatOps R`: every `float` operation is the exact operation followed by the
rounding `fl.rnd`, and `fl.sqrt` is `std::sqrt`.  The theorems that do not depend on
a rounding mode hold for every `fl`; `binary32` is the IEEE 754 single-precision
instance on the rationals (round to nearest, ties to even, with subnormals; overflow to
infinity and NaN are not modelled), and `exact_arith` is the reading of `float` as exact
numbers.  `std::vector` is `List`, `size_t` is `Nat` (a vector never holds `2^64` elements,
so counters do not wrap; the one subtraction that can wrap, `points.size() - 1`, is taken
modulo `2^64`).  An access outside a vector (undefined behaviour in C++) makes the
operation return `none`.
-/

set_option linter.unusedSectionVars false

namespace KMeansModel

-- ---------------------------------------------------------------------------
-- Data model (main.cpp lines 12-22)
-- ---------------------------------------------------------------------------

/-- `struct Point { float x, y; size_t cluster_id; }`. -/
structure Point (R : Type) where
  x : R
  y : R
  cluster_id : Nat
deriving DecidableEq

/-- `struct Cluster { Point mean; size_t pop, id; }`. -/
structure Cluster (R : Type) where
  mean : Point R
  pop : Nat
  id : Nat
deriving DecidableEq

/-- `struct KMeans { std::vector<Point> points; std::vector<Cluster> clusters; }`. -/
structure KMeans (R : Type) where
  points : List (Point R)
  clusters : List (Cluster R)
deriving DecidableEq

/-- The `float` arithmetic of the source: `rnd` rounds an exact result to a `float`
(so `a + b` of the source is `rnd (a + b)`, a literal `0.03f` is `rnd (3 / 100)`,
`float(n)` is `rnd n`), and `sqrt` is `std::sqrt` on `float`. -/
structure FloatOps (R : Type) where
  rnd : R → R
  sqrt : R → R

section Generic

variable {R : Type} [LinearOrderedField R]

/-- The braced initialiser `{a, b}` of a `Point`: the omitted `cluster_id` is zero. -/
def Point.mk2 (a b : R) : Point R := ⟨a, b, 0⟩

/-- A value-initialised `Point` (what `std::vector::resize` and the sized constructor create). -/
def Point.zero : Point R := ⟨0, 0, 0⟩

/-- A value-initialised `Cluster`. -/
def Cluster.zero : Cluster R := ⟨Point.zero, 0, 0⟩

-- ---------------------------------------------------------------------------
-- K-means helpers (main.cpp lines 39-49)
-- ---------------------------------------------------------------------------

/-- `sqr(a) = a * a`, the product rounded to `float`. -/
def sqr (fl : FloatOps R) (a : R) : R := fl.rnd (a * a)

/-- `distance(x1, y1, x2, y2) = std::sqrt(sqr(x2 - x1) + sqr(y2 - y1))`, each of the two
differences, the two squares and the sum rounded to `float`. -/
def distance (fl : FloatOps R) (x1 y1 x2 y2 : R) : R :=
  fl.sqrt (fl.rnd (sqr fl (fl.rnd (x2 - x1)) + sqr fl (fl.rnd (y2 - y1))))

-- ---------------------------------------------------------------------------
-- std::min_element (first smallest element, `last` on an empty range)
-- ---------------------------------------------------------------------------

/-- The loop of `std::min_element`: `smallest` is the index of the best element so far,
`best` its value, `i` the index of the head of the remaining range; an element replaces
the best one only when it is strictly smaller. -/
def min_element_loop : List R → Nat → R → Nat → Nat
  | [], smallest, _, _ => smallest
  | d :: ds, smallest, best, i =>
      if d < best then min_element_loop ds i d (i + 1)
      else min_element_loop ds smallest best (i + 1)

/-- `std::distance(dist.begin(), std::min_element(dist.begin(), dist.end()))`:
on an empty range the result is `last`, at offset 0. -/
def min_element : List R → Nat
  | [] => 0
  | d :: ds => min_element_loop ds 0 d 1

-- ---------------------------------------------------------------------------
-- KMeans::find_closest_cluster (main.cpp lines 89-99)
-- ---------------------------------------------------------------------------

/-- The loop `for (auto &c : clusters) dist[c.id] = distance(c.mean.x, c.mean.y, pt.x, pt.y);`
over the remaining clusters; a write outside `dist` is undefined behaviour (`none`). -/
def fill_dist (fl : FloatOps R) (pt : Point R) : List (Cluster R) → List R → Option (List R)
  | [], dist => some dist
  | c :: cs, dist =>
      if c.id < dist.length then
        fill_dist fl pt cs (dist.set c.id (distance fl c.mean.x c.mean.y pt.x pt.y))
      else none

/-- `KMeans::find_closest_cluster`: `dist` starts as `clusters.size()` zeros, is filled
through the clusters' ids, and the cluster at the offset of the first smallest distance is
returned; dereferencing past the end of `clusters` is undefined behaviour (`none`). -/
def find_closest_cluster (fl : FloatOps R) (k : KMeans R) (pt : Point R) : Option (Cluster R) :=
  match fill_dist fl pt k.clusters (List.replicate k.clusters.length 0) with
  | none => none
  | some dist => k.clusters[min_element dist]?

-- ---------------------------------------------------------------------------
-- KMeans::recalculate_clusters (main.cpp lines 101-132)
-- ---------------------------------------------------------------------------

/-- First loop: `pt.cluster_id = find_closest_cluster(pt).id` for every point in order. -/
def assign_points (fl : FloatOps R) (k : KMeans R) : List (Point R) → Option (List (Point R))
  | [] => some []
  | pt :: pts =>
      match find_closest_cluster fl k pt with
      | none => none
      | some c =>
          match assign_points fl k pts with
          | none => none
          | some rest => some ({ pt with cluster_id := c.id } :: rest)

/-- Second loop: `c.pop = 0; c.mean = {0.0f, 0.0f};`. -/
def reset_clusters (cs : List (Cluster R)) : List (Cluster R) :=
  cs.map fun c => { c with pop := 0, mean := Point.mk2 0 0 }

/-- Third loop: `auto &c = clusters[pt.cluster_id]; c.mean = {c.mean.x + pt.x, c.mean.y + pt.y};
++c.pop;` with the two `float` additions; an index outside `clusters` is undefined
behaviour (`none`). -/
def accumulate (fl : FloatOps R) : List (Point R) → List (Cluster R) → Option (List (Cluster R))
  | [], cs => some cs
  | pt :: pts, cs =>
      match cs[pt.cluster_id]? with
      | none => none
      | some c =>
          accumulate fl pts
            (cs.set pt.cluster_id
              { c with
                mean := Point.mk2 (fl.rnd (c.mean.x + pt.x)) (fl.rnd (c.mean.y + pt.y)),
                pop := c.pop + 1 })

/-- Body of the fourth loop: `if (c.pop) { c.mean.x /= float(c.pop); c.mean.y /= float(c.pop); }`:
the conversion `float(c.pop)` and the two `float` divisions. -/
def divide_cluster (fl : FloatOps R) (c : Cluster R) : Cluster R :=
  if c.pop ≠ 0 then
    { c with
      mean :=
        { c.mean with
          x := fl.rnd (c.mean.x / fl.rnd (c.pop : R)),
          y := fl.rnd (c.mean.y / fl.rnd (c.pop : R)) } }
  else c

/-- Fourth loop over all clusters. -/
def divide_clusters (fl : FloatOps R) (cs : List (Cluster R)) : List (Cluster R) :=
  cs.map (divide_cluster fl)

/-- `KMeans::recalculate_clusters`: assign, reset, accumulate, divide. -/
def recalculate_clusters (fl : FloatOps R) (k : KMeans R) : Option (KMeans R) :=
  match assign_points fl k k.points with
  | none => none
  | some pts =>
      match accumulate fl pts (reset_clusters k.clusters) with
      | none => none
      | some cs => some { points := pts, clusters := divide_clusters fl cs }

-- ---------------------------------------------------------------------------
-- The global generator `gen` and the two distributions (main.cpp lines 25-26)
-- ---------------------------------------------------------------------------

/-- The global `std::mt19937 gen`, abstracted to the sequence of outcomes it will produce:
`draws n` is the outcome of the `n`-th draw and `pos` counts the draws made so far. -/
structure Gen where
  draws : Nat → Nat
  pos : Nat

/-- One draw from the generator. -/
def Gen.next (g : Gen) : Nat × Gen :=
  (g.draws g.pos, { g with pos := g.pos + 1 })

/-- `std::uniform_real_distribution{a, b}(gen)`: `u * (b - a) + a` in `float` arithmetic,
where `u` is the canonical `float` in `[0, 1)` (a multiple of `2^-24`) the draw gives. -/
def uniform_real_distribution (fl : FloatOps R) (a b : R) (g : Gen) : R × Gen :=
  (fl.rnd (fl.rnd ((((g.next.1 % 2 ^ 24 : Nat) : R) / 2 ^ 24) * fl.rnd (b - a)) + a), g.next.2)

/-- `std::uniform_int_distribution<size_t>{a, b}(gen)`: some value in `[a, b]`; every value of
the interval is the outcome of some draw. -/
def uniform_int_distribution (a b : Nat) (g : Gen) : Nat × Gen :=
  (a + g.next.1 % (b - a + 1), g.next.2)

-- ---------------------------------------------------------------------------
-- KMeans::randomize_points and the constructor (main.cpp lines 62-87)
-- ---------------------------------------------------------------------------

/-- `randomize_points(a, b, min, max)` on the points of the range `[a, b)`:
`*a = {uniform_real_distribution{min.x, max.x}(gen), uniform_real_distribution{min.y, max.y}(gen)}`,
the two draws made left to right. -/
def randomize_range (fl : FloatOps R) (min max : Point R) :
    List (Point R) → Gen → List (Point R) × Gen
  | [], g => ([], g)
  | _ :: pts, g =>
      let x := uniform_real_distribution fl min.x max.x g
      let y := uniform_real_distribution fl min.y max.y x.2
      let rest := randomize_range fl min max pts y.2
      (Point.mk2 x.1 y.1 :: rest.1, rest.2)

/-- `randomize_points()`: the whole vector, with the default box `{0,0}`..`{1,1}`. -/
def randomize_points (fl : FloatOps R) (k : KMeans R) (g : Gen) : KMeans R × Gen :=
  let r := randomize_range fl (Point.mk2 0 0) (Point.mk2 1 1) k.points g
  ({ k with points := r.1 }, r.2)

/-- The constructor's loop from index `i` on:
`clusters[i].mean = points[uniform_int_distribution<size_t>{0, points.size() - 1}(gen)];
clusters[i].id = i;`.  The upper bound is computed in `size_t`, so it wraps to `2^64 - 1`
when `points` is empty; reading `points` out of range is undefined behaviour (`none`). -/
def init_clusters (points : List (Point R)) :
    List (Cluster R) → Nat → Gen → Option (List (Cluster R) × Gen)
  | [], _, g => some ([], g)
  | c :: cs, i, g =>
      let j := uniform_int_distribution 0 ((points.length + 2 ^ 64 - 1) % 2 ^ 64) g
      match points[j.1]? with
      | none => none
      | some p =>
          match init_clusters points cs (i + 1) j.2 with
          | none => none
          | some rest => some ({ c with mean := p, id := i } :: rest.1, rest.2)

/-- The constructor `KMeans::KMeans(point_count, cluster_count)`. -/
def KMeans.ctor (fl : FloatOps R) (point_count cluster_count : Nat) (g : Gen) :
    Option (KMeans R × Gen) :=
  let k0 : KMeans R :=
    ⟨List.replicate point_count Point.zero, List.replicate cluster_count Cluster.zero⟩
  let k1 := randomize_points fl k0 g
  match init_clusters k1.1.points k1.1.clusters 0 k1.2 with
  | none => none
  | some r => some ({ k1.1 with clusters := r.1 }, r.2)

-- ---------------------------------------------------------------------------
-- std::find_if, std::remove_if, vector::erase, vector::resize
-- ---------------------------------------------------------------------------

/-- `std::find_if`: offset of the first element satisfying `p`, the length if there is none. -/
def find_if {α : Type} (p : α → Bool) : List α → Nat
  | [] => 0
  | a :: as => if p a then 0 else find_if p as + 1

/-- The loop of `std::remove_if` with `n = last - first` elements left to read:
`if (!pred(*first)) { *result = std::move(*first); ++result; }`. -/
def remove_if_loop {α : Type} (p : α → Bool) : Nat → List α → Nat → Nat → List α × Nat
  | 0, v, result, _ => (v, result)
  | n + 1, v, result, first =>
      match v[first]? with
      | none => (v, result)
      | some a =>
          if p a then remove_if_loop p n v result (first + 1)
          else remove_if_loop p n (v.set result a) (result + 1) (first + 1)

/-- `std::remove_if(v.begin(), v.end(), p)`: the vector after the moves and the offset of the
returned iterator (the new logical end). -/
def remove_if {α : Type} (p : α → Bool) (v : List α) : List α × Nat :=
  let first := find_if p v
  if first = v.length then (v, first)
  else remove_if_loop p (v.length - (first + 1)) v first (first + 1)

/-- `v.erase(it, v.end())` with `it` at offset `r.2` of the vector `r.1`. -/
def erase_to_end {α : Type} (r : List α × Nat) : List α :=
  r.1.take r.2

/-- `v.resize(n)`: truncate, or append value-initialised points. -/
def resize (v : List (Point R)) (n : Nat) : List (Point R) :=
  v.take n ++ List.replicate (n - v.length) Point.zero

-- ---------------------------------------------------------------------------
-- The event handlers of `main` (main.cpp lines 143-145 and 161-236)
-- ---------------------------------------------------------------------------

/-- The literal `0.03f` of `erase_points_around`: the decimal `0.03` rounded to `float`. -/
def erase_radius (fl : FloatOps R) : R := fl.rnd (3 / 100)

/-- The lambda `erase_points_around(x, y)`:
`k.points.erase(std::remove_if(begin, end, [x, y](pt) { return distance(x, y, pt.x, pt.y) < 0.03f; }), end)`. -/
def erase_points_around (fl : FloatOps R) (k : KMeans R) (x y : R) : KMeans R :=
  let pred : Point R → Bool := fun pt => decide (distance fl x y pt.x pt.y < erase_radius fl)
  { k with points := erase_to_end (remove_if pred k.points) }

/-- `static_cast<int>(n)` for a `size_t` value: the low 32 bits read as two's complement. -/
def to_int (n : Nat) : Int :=
  if n % 2 ^ 32 < 2 ^ 31 then ((n % 2 ^ 32 : Nat) : Int) else ((n % 2 ^ 32 : Nat) : Int) - 2 ^ 32

/-- `k.points.resize(k.points.size() + added); k.randomize_points(k.points.end() - added,
k.points.end(), min, max);` (the Add key with 128 points, the left mouse button with 16). -/
def add_points (fl : FloatOps R) (k : KMeans R) (added : Nat) (min max : Point R) (g : Gen) :
    KMeans R × Gen :=
  let pts := resize k.points (k.points.length + added)
  let r := randomize_range fl min max (pts.drop (pts.length - added)) g
  ({ k with points := pts.take (pts.length - added) ++ r.1 }, r.2)

/-- Subtract key: `k.points.resize(std::max(static_cast<int>(k.points.size()) - removed, 0))`
with `removed = 128`. -/
def remove_points (k : KMeans R) : KMeans R :=
  { k with points := resize k.points (max (to_int k.points.length - 128) 0).toNat }

/-- Up key: `k.clusters.push_back({{0.0f, 0.0f}, 0, k.clusters.size()})`. -/
def add_cluster (k : KMeans R) : KMeans R :=
  { k with clusters := k.clusters ++ [⟨Point.mk2 0 0, 0, k.clusters.length⟩] }

/-- Down key: `if (!k.clusters.empty()) k.clusters.resize(k.clusters.size() - 1);`. -/
def remove_last_cluster (k : KMeans R) : KMeans R :=
  if k.clusters ≠ [] then { k with clusters := k.clusters.take (k.clusters.length - 1) } else k

/-- The events of the main loop that touch the model; mouse positions are the values
`window_to_normal` computed from them. -/
inductive Event (R : Type) where
  | KeySpace
  | KeyR
  | KeyAdd
  | KeySubtract
  | KeyUp
  | KeyDown
  | MouseLeftPressed (x y : R)
  | MouseRightPressed (x y : R)
  | MouseRightReleased
  | MouseMoved (x y : R)

/-- What `main` holds between two events: the model `k`, the generator and `is_erasing`. -/
structure App (R : Type) where
  k : KMeans R
  gen : Gen
  is_erasing : Bool

/-- One turn of the event loop; `none` when the handler runs into undefined behaviour. -/
def handle_event (fl : FloatOps R) (ev : Event R) (s : App R) : Option (App R) :=
  match ev with
  | .KeySpace =>
      match recalculate_clusters fl s.k with
      | none => none
      | some k => some { s with k := k }
  | .KeyR =>
      let r := randomize_points fl s.k s.gen
      some { s with k := r.1, gen := r.2 }
  | .KeyAdd =>
      let r := add_points fl s.k 128 (Point.mk2 0 0) (Point.mk2 1 1) s.gen
      some { s with k := r.1, gen := r.2 }
  | .KeySubtract => some { s with k := remove_points s.k }
  | .KeyUp => some { s with k := add_cluster s.k }
  | .KeyDown => some { s with k := remove_last_cluster s.k }
  | .MouseLeftPressed x y =>
      let min : Point R := Point.mk2 (fl.rnd (x - fl.rnd (2 / 100))) (fl.rnd (y - fl.rnd (2 / 100)))
      let max : Point R := Point.mk2 (fl.rnd (x + fl.rnd (2 / 100))) (fl.rnd (y + fl.rnd (2 / 100)))
      let r := add_points fl s.k 16 min max s.gen
      some { s with k := r.1, gen := r.2 }
  | .MouseRightPressed x y =>
      some { s with k := erase_points_around fl s.k x y, is_erasing := true }
  | .MouseRightReleased => some { s with is_erasing := false }
  | .MouseMoved x y =>
      if s.is_erasing then some { s with k := erase_points_around fl s.k x y } else some s

/-- The event loop over a sequence of events. -/
def run_events (fl : FloatOps R) : List (Event R) → App R → Option (App R)
  | [], s => some s
  | ev :: evs, s =>
      match handle_event fl ev s with
      | none => none
      | some s1 => run_events fl evs s1

/-- `KMeans k{point_count, cluster_count}` followed by the event loop. -/
def run_main (fl : FloatOps R) (point_count cluster_count : Nat) (g : Gen)
    (evs : List (Event R)) : Option (App R) :=
  match KMeans.ctor fl point_count cluster_count g with
  | none => none
  | some r => run_events fl evs ⟨r.1, r.2, false⟩

-- ---------------------------------------------------------------------------
-- Specification vocabulary and the concrete models used below
-- ---------------------------------------------------------------------------

/-- Every cluster's `id` is its index in the vector. -/
def ids_are_indices (cs : List (Cluster R)) : Prop :=
  cs.map (fun c => c.id) = List.range cs.length

instance (cs : List (Cluster R)) : Decidable (ids_are_indices cs) := by
  unfold ids_are_indices; infer_instance

/-- The distances `find_closest_cluster` stores for `pt`, in cluster order. -/
def dist_to (fl : FloatOps R) (cs : List (Cluster R)) (pt : Point R) : List R :=
  cs.map fun c => distance fl c.mean.x c.mean.y pt.x pt.y

/-- The offset `find_closest_cluster` computes for `pt`: the first smallest stored distance. -/
def closest_index (fl : FloatOps R) (cs : List (Cluster R)) (pt : Point R) : Nat :=
  min_element (dist_to fl cs pt)

/-- The points after the assignment loop, when no access goes out of range. -/
def assigned (fl : FloatOps R) (k : KMeans R) (pts : List (Point R)) : List (Point R) :=
  pts.map fun p => { p with cluster_id := closest_index fl k.clusters p }

/-- The `float` sum of `xs` added to `a` one after the other, as the accumulation loop does. -/
def fsum (fl : FloatOps R) (a : R) (xs : List R) : R :=
  xs.foldl (fun acc x => fl.rnd (acc + x)) a

/-- The reading of `float` as exact numbers: nothing is rounded; `sqrt` stays a parameter. -/
def exact_arith (sqrt : R → R) : FloatOps R := ⟨fun x => x, sqrt⟩

/-- The example scenario: points `(0,0), (0,1), (1,0), (1,1)` and two clusters with ids 0 and 1
seeded at the means `(0,0)` and `(1,1)`. -/
def example_model : KMeans R :=
  ⟨[⟨0, 0, 0⟩, ⟨0, 1, 0⟩, ⟨1, 0, 0⟩, ⟨1, 1, 0⟩], [⟨⟨0, 0, 0⟩, 0, 0⟩, ⟨⟨1, 1, 0⟩, 0, 1⟩]⟩

/-- One point at the origin and two clusters whose means `(4209878, 4663432) / 2^24` and
`(2366342, 5819888) / 2^24` are at exactly the same Euclidean distance from it
(`4209878^2 + 4663432^2 = 2366342^2 + 5819888^2`). -/
def tie_model : KMeans R :=
  ⟨[⟨0, 0, 0⟩],
    [⟨⟨2104939 / 8388608, 582929 / 2097152, 0⟩, 0, 0⟩,
      ⟨⟨1183171 / 8388608, 363743 / 1048576, 0⟩, 0, 1⟩]⟩

/-- Three points near the circle of radius 0.03 around the origin: the first two,
`(1003201, 16074853) / 2^29` and `(1000409, 16075027) / 2^29`, at exactly the same
Euclidean distance (`1003201^2 + 16074853^2 = 1000409^2 + 16075027^2`), the third at
`(0.03f, 0)`, where `0.03f = 16106127 / 2^29`. -/
def ring_model : KMeans R :=
  ⟨[⟨1003201 / 536870912, 16074853 / 536870912, 0⟩,
      ⟨1000409 / 536870912, 16075027 / 536870912, 0⟩,
      ⟨16106127 / 536870912, 0, 0⟩], []⟩

/-- Points at `x = 4, 6, 20` on the line `y = 0` and two clusters seeded at `x = 0` and `x = 10`. -/
def drift_model : KMeans R :=
  ⟨[⟨4, 0, 0⟩, ⟨6, 0, 0⟩, ⟨20, 0, 0⟩], [⟨⟨0, 0, 0⟩, 0, 0⟩, ⟨⟨10, 0, 0⟩, 0, 1⟩]⟩

end Generic

-- ---------------------------------------------------------------------------
-- IEEE 754 binary32 on the rationals (round to nearest, ties to even)
-- ---------------------------------------------------------------------------

/-- The nearest integer to `n / d`, the even one of the two when `n / d` lies half-way. -/
def round_half_even (n d : Nat) : Nat :=
  if 2 * (n % d) < d then n / d
  else if d < 2 * (n % d) then n / d + 1
  else if (n / d) % 2 = 0 then n / d else n / d + 1

/-- The exponent `⌊log2 (n / d)⌋` of a positive rational `n / d`. -/
def floor_log2 (n d : Nat) : Int :=
  if d * 2 ^ (Nat.log2 n - Nat.log2 d) ≤ n * 2 ^ (Nat.log2 d - Nat.log2 n) then
    (Nat.log2 n : Int) - Nat.log2 d
  else (Nat.log2 n : Int) - Nat.log2 d - 1

/-- Rounding the positive rational `n / d` to binary32: the exponent `u` of the last mantissa
bit (24 bits of mantissa, not below the subnormal exponent `-149`) and the mantissa
`m`, the integer nearest to `(n / d) / 2^u`; the rounded value is `m * 2^u`. -/
def round32_parts (n d : Nat) : Nat × Int :=
  let u : Int := max (floor_log2 n d - 23) (-149)
  (round_half_even (n * 2 ^ (-u).toNat) (d * 2 ^ u.toNat), u)

/-- The binary32 value nearest to the rational `q`, ties to even (no overflow to infinity). -/
def round32 (q : ℚ) : ℚ :=
  if q.num = 0 then 0
  else
    let p := round32_parts q.num.natAbs q.den
    (if q.num < 0 then -1 else 1) * (p.1 : ℚ) * (2 : ℚ) ^ p.2

/-- The mantissa of a correctly rounded square root: with `s = ⌊sqrt (N / D)⌋`, it is `s` or
`s + 1` according to the comparison of `N / D` with `(s + 1/2)^2` (ties to even). -/
def sqrt32_mantissa (N D s : Nat) : Nat :=
  if 4 * N < (2 * s + 1) ^ 2 * D then s
  else if (2 * s + 1) ^ 2 * D < 4 * N then s + 1
  else if s % 2 = 0 then s else s + 1

/-- The correctly rounded square root of the positive rational `n / d`: the exponent `u` of
the last mantissa bit of the root and the mantissa, computed from `(n / d) / 4^u`. -/
def sqrt32_parts (n d : Nat) : Nat × Int :=
  let u : Int := floor_log2 n d / 2 - 23
  let N : Nat := n * 4 ^ (-u).toNat
  let D : Nat := d * 4 ^ u.toNat
  (sqrt32_mantissa N D (Nat.sqrt (N / D)), u)

/-- `std::sqrt` on binary32: the binary32 value nearest to the square root of `q`
(0 for `q ≤ 0`; the source takes roots of sums of squares only). -/
def sqrt32 (q : ℚ) : ℚ :=
  if q.num ≤ 0 then 0
  else
    let p := sqrt32_parts q.num.natAbs q.den
    (p.1 : ℚ) * (2 : ℚ) ^ p.2

/-- The arithmetic of the source on IEEE 754 hardware. -/
def binary32 : FloatOps ℚ := ⟨round32, sqrt32⟩

/-- A generator whose `n`-th draw is `n`. -/
def countingGen : Gen := ⟨fun n => n, 0⟩

section Proofs

variable {R : Type} [LinearOrderedField R]

theorem take_succ_set {α : Type} (a : α) :
    ∀ (l : List α) (o : Nat), o < l.length → (l.set o a).take (o + 1) = l.take o ++ [a]
  | [], _, h => by simp at h
  | _ :: l, 0, _ => by simp
  | b :: l, o + 1, h => by
      have h1 : o < l.length := by simpa using h
      simp [take_succ_set a l o h1]

theorem fill_dist_range (fl : FloatOps R) (pt : Point R) :
    ∀ (cs : List (Cluster R)) (o : Nat) (dist : List R),
      cs.map (fun c => c.id) = List.range' o cs.length → o + cs.length = dist.length →
      fill_dist fl pt cs dist = some (dist.take o ++ dist_to fl cs pt)
  | [], o, dist, _, hl => by
      have : dist.length ≤ o := by simp at hl; omega
      simp [fill_dist, dist_to, List.take_of_length_le this]
  | c :: cs, o, dist, hid, hl => by
      simp only [List.map_cons, List.length_cons, List.range'_succ, List.cons.injEq] at hid
      obtain ⟨hc, hcs⟩ := hid
      have ho : o < dist.length := by simp at hl; omega
      have hl2 : o + 1 + cs.length = (dist.set o (distance fl c.mean.x c.mean.y pt.x pt.y)).length := by
        simp at hl ⊢; omega
      have ih := fill_dist_range fl pt cs (o + 1) _ hcs hl2
      simp only [fill_dist, hc, ho, if_true, ih, take_succ_set _ dist o ho, dist_to, List.map_cons,
        List.append_assoc, List.singleton_append]

theorem fill_dist_eq (fl : FloatOps R) (pt : Point R) (cs : List (Cluster R))
    (hid : ids_are_indices cs) :
    fill_dist fl pt cs (List.replicate cs.length 0) = some (dist_to fl cs pt) := by
  have h := fill_dist_range fl pt cs 0 (List.replicate cs.length 0)
    (by rw [← List.range_eq_range']; exact hid) (by simp)
  simpa using h

theorem min_element_loop_spec :
    ∀ (ds pre : List R) (s : Nat) (b : R), pre[s]? = some b →
      (∀ (j : Nat) (x : R), pre[j]? = some x → b ≤ x) → (∀ (j : Nat) (x : R), j < s → pre[j]? = some x → b < x) →
      ∃ v, (pre ++ ds)[min_element_loop ds s b pre.length]? = some v ∧
        (∀ (j : Nat) (x : R), (pre ++ ds)[j]? = some x → v ≤ x) ∧
        (∀ (j : Nat) (x : R), j < min_element_loop ds s b pre.length → (pre ++ ds)[j]? = some x → v < x)
  | [], pre, s, b, hs, hle, hlt => by
      refine ⟨b, ?_, ?_, ?_⟩
      · simpa [min_element_loop] using hs
      · simpa using hle
      · simpa [min_element_loop] using hlt
  | d :: ds, pre, s, b, hs, hle, hlt => by
      have hslt : s < pre.length := by
        by_contra hc
        rw [List.getElem?_eq_none (by omega)] at hs
        cases hs
      have happ : pre ++ d :: ds = (pre ++ [d]) ++ ds := by simp
      have hlen : (pre ++ [d]).length = pre.length + 1 := by simp
      have hget : ∀ j x, (pre ++ [d])[j]? = some x → pre[j]? = some x ∨ (j = pre.length ∧ x = d) := by
        intro j x hj
        rcases Nat.lt_or_ge j pre.length with h | h
        · left; rwa [List.getElem?_append_left h] at hj
        · right
          rw [List.getElem?_append_right h] at hj
          rcases Nat.eq_zero_or_pos (j - pre.length) with h0 | h0
          · rw [h0] at hj
            simp at hj
            exact ⟨by omega, hj.symm⟩
          · rw [List.getElem?_eq_none (by simp; omega)] at hj
            cases hj
      by_cases hd : d < b
      · have ih := min_element_loop_spec ds (pre ++ [d]) pre.length d (by simp)
          (by
            intro j x hj
            rcases hget j x hj with h | ⟨_, h⟩
            · exact le_of_lt (lt_of_lt_of_le hd (hle j x h))
            · exact le_of_eq h.symm)
          (by
            intro j x hjl hj
            rcases hget j x hj with h | ⟨h, _⟩
            · exact lt_of_lt_of_le hd (hle j x h)
            · omega)
        rw [hlen] at ih
        simpa only [min_element_loop, hd, if_true, happ] using ih
      · have ih := min_element_loop_spec ds (pre ++ [d]) s b
          (by rw [List.getElem?_append_left hslt]; exact hs)
          (by
            intro j x hj
            rcases hget j x hj with h | ⟨_, h⟩
            · exact hle j x h
            · rw [h]; exact not_lt.mp hd)
          (by
            intro j x hjl hj
            rcases hget j x hj with h | ⟨h, _⟩
            · exact hlt j x hjl h
            · omega)
        rw [hlen] at ih
        simpa only [min_element_loop, hd, if_false, happ] using ih

theorem min_element_spec (ds : List R) (h : ds ≠ []) :
    ∃ v, ds[min_element ds]? = some v ∧ (∀ (j : Nat) (x : R), ds[j]? = some x → v ≤ x) ∧
      (∀ (j : Nat) (x : R), j < min_element ds → ds[j]? = some x → v < x) := by
  cases ds with
  | nil => exact absurd rfl h
  | cons d ds =>
      have hsp := min_element_loop_spec ds [d] 0 d (by simp)
        (by
          intro j x hj
          cases j with
          | zero => simp at hj; exact le_of_eq hj
          | succ j => simp at hj)
        (by intro j x hj; omega)
      simpa [min_element] using hsp

theorem id_of_getElem? (cs : List (Cluster R)) (hid : ids_are_indices cs) (i : Nat)
    (c : Cluster R) (hc : cs[i]? = some c) : c.id = i := by
  have h1 : (cs.map fun c => c.id)[i]? = some c.id := by simp [hc]
  have hi : i < cs.length := by
    by_contra hn
    rw [List.getElem?_eq_none (by omega)] at hc
    cases hc
  rw [hid, List.getElem?_range hi] at h1
  exact (Option.some.inj h1).symm

theorem closest_index_spec (fl : FloatOps R) (cs : List (Cluster R)) (pt : Point R) (hne : cs ≠ []) :
    ∃ c, cs[closest_index fl cs pt]? = some c ∧
      (∀ (j : Nat) (c' : Cluster R), cs[j]? = some c' →
        distance fl c.mean.x c.mean.y pt.x pt.y ≤ distance fl c'.mean.x c'.mean.y pt.x pt.y) ∧
      (∀ (j : Nat) (c' : Cluster R), j < closest_index fl cs pt → cs[j]? = some c' →
        distance fl c.mean.x c.mean.y pt.x pt.y < distance fl c'.mean.x c'.mean.y pt.x pt.y) := by
  have hne2 : dist_to fl cs pt ≠ [] := by simpa [dist_to] using hne
  obtain ⟨v, hv, hle, hlt⟩ := min_element_spec (dist_to fl cs pt) hne2
  have hv2 := hv
  simp only [dist_to, List.getElem?_map, Option.map_eq_some'] at hv2
  obtain ⟨c, hc, hcv⟩ := hv2
  refine ⟨c, hc, ?_, ?_⟩
  · intro j c' hj
    rw [hcv]
    exact hle j _ (by simp [dist_to, hj])
  · intro j c' hjl hj
    rw [hcv]
    exact hlt j _ hjl (by simp [dist_to, hj])

theorem find_closest_cluster_eq (fl : FloatOps R) (k : KMeans R) (pt : Point R)
    (hne : k.clusters ≠ []) (hid : ids_are_indices k.clusters) :
    ∃ c, find_closest_cluster fl k pt = some c ∧
      k.clusters[closest_index fl k.clusters pt]? = some c ∧
      c.id = closest_index fl k.clusters pt := by
  obtain ⟨c, hc, _, _⟩ := closest_index_spec fl k.clusters pt hne
  refine ⟨c, ?_, hc, id_of_getElem? _ hid _ _ hc⟩
  simp only [find_closest_cluster, fill_dist_eq fl pt k.clusters hid]
  exact hc

theorem assign_points_eq (fl : FloatOps R) (k : KMeans R)
    (hne : k.clusters ≠ []) (hid : ids_are_indices k.clusters) :
    ∀ pts : List (Point R), assign_points fl k pts = some (assigned fl k pts)
  | [] => rfl
  | pt :: pts => by
      obtain ⟨c, hf, _, hcid⟩ := find_closest_cluster_eq fl k pt hne hid
      simp [assign_points, hf, assign_points_eq fl k hne hid pts, assigned, hcid]

theorem closest_index_lt (fl : FloatOps R) (cs : List (Cluster R)) (pt : Point R) (hne : cs ≠ []) :
    closest_index fl cs pt < cs.length := by
  obtain ⟨c, hc, _, _⟩ := closest_index_spec fl cs pt hne
  by_contra hn
  rw [List.getElem?_eq_none (by omega)] at hc
  cases hc

theorem map_set_same {α β : Type} (f : α → β) (b : α) :
    ∀ (l : List α) (i : Nat) (a : α), l[i]? = some a → f b = f a → (l.set i b).map f = l.map f
  | [], _, _, h, _ => by simp at h
  | x :: l, 0, a, h, hf => by
      simp at h
      simp [h, hf]
  | x :: l, i + 1, a, h, hf => by
      have h1 : l[i]? = some a := by simpa using h
      simp [map_set_same f b l i a h1 hf]

theorem sum_pop_set (b : Cluster R) :
    ∀ (l : List (Cluster R)) (i : Nat) (a : Cluster R), l[i]? = some a →
      ((l.set i b).map fun c => c.pop).sum + a.pop = (l.map fun c => c.pop).sum + b.pop
  | [], _, _, h => by simp at h
  | x :: l, 0, a, h => by
      simp at h
      simp [h]; omega
  | x :: l, i + 1, a, h => by
      have h1 : l[i]? = some a := by simpa using h
      have ih := sum_pop_set b l i a h1
      simp only [List.set_cons_succ, List.map_cons, List.sum_cons]
      omega

theorem accumulate_spec (fl : FloatOps R) :
    ∀ (pts : List (Point R)) (cs : List (Cluster R)), (∀ p ∈ pts, p.cluster_id < cs.length) →
      ∃ cs', accumulate fl pts cs = some cs' ∧ cs'.length = cs.length ∧
        (cs'.map fun c => c.id) = (cs.map fun c => c.id) ∧
        (cs'.map fun c => c.pop).sum = (cs.map fun c => c.pop).sum + pts.length ∧
        ∀ (i : Nat) (c : Cluster R), cs[i]? = some c →
          ∃ c', cs'[i]? = some c' ∧
            c'.pop = c.pop + (pts.filter fun p => decide (p.cluster_id = i)).length ∧
            c'.mean.x = fsum fl c.mean.x
              ((pts.filter fun p => decide (p.cluster_id = i)).map fun p => p.x) ∧
            c'.mean.y = fsum fl c.mean.y
              ((pts.filter fun p => decide (p.cluster_id = i)).map fun p => p.y)
  | [], cs, _ =>
      ⟨cs, rfl, rfl, rfl, by simp, fun i c hc => ⟨c, hc, by simp, by simp [fsum], by simp [fsum]⟩⟩
  | pt :: pts, cs, hin => by
      have hj : pt.cluster_id < cs.length := hin pt (by simp)
      have hcj : cs[pt.cluster_id]? = some cs[pt.cluster_id] := List.getElem?_eq_getElem hj
      generalize cs[pt.cluster_id] = cj at hcj
      have hlen : ∀ b : Cluster R, (cs.set pt.cluster_id b).length = cs.length := by simp
      obtain ⟨cs', hacc, hl, hids, hsum, hper⟩ := accumulate_spec fl pts
        (cs.set pt.cluster_id
          { cj with
            mean := Point.mk2 (fl.rnd (cj.mean.x + pt.x)) (fl.rnd (cj.mean.y + pt.y)),
            pop := cj.pop + 1 })
        (by intro p hp; rw [hlen]; exact hin p (by simp [hp]))
      refine ⟨cs', ?_, ?_, ?_, ?_, ?_⟩
      · simp only [accumulate, hcj]; exact hacc
      · rw [hl, hlen]
      · rw [hids]; exact map_set_same _ _ cs _ cj hcj rfl
      · have hs := sum_pop_set
          { cj with
            mean := Point.mk2 (fl.rnd (cj.mean.x + pt.x)) (fl.rnd (cj.mean.y + pt.y)),
            pop := cj.pop + 1 }
          cs pt.cluster_id cj hcj
        simp only [List.length_cons] at hs ⊢
        omega
      · intro i c hc
        by_cases hji : pt.cluster_id = i
        · have hcc : cj = c := by
            rw [hji] at hcj; rw [hcj] at hc; exact Option.some.inj hc
          obtain ⟨c', hc', hpop, hx, hy⟩ := hper i _
            (by rw [← hji, List.getElem?_set_self hj])
          refine ⟨c', hc', ?_, ?_, ?_⟩
          · rw [hpop]; simp [hji, hcc]; omega
          · rw [hx]; simp [hji, hcc, Point.mk2, fsum]
          · rw [hy]; simp [hji, hcc, Point.mk2, fsum]
        · obtain ⟨c', hc', hpop, hx, hy⟩ := hper i c
            (by rw [List.getElem?_set_ne hji]; exact hc)
          refine ⟨c', hc', ?_, ?_, ?_⟩
          · rw [hpop]; simp [hji]
          · rw [hx]; simp [hji]
          · rw [hy]; simp [hji]

theorem fsum_exact (fl : FloatOps R) (hexact : ∀ x, fl.rnd x = x) :
    ∀ (xs : List R) (a : R), fsum fl a xs = a + xs.sum
  | [], a => by simp [fsum]
  | x :: xs, a => by
      have ih := fsum_exact fl hexact xs (fl.rnd (a + x))
      simp only [fsum, List.foldl_cons] at ih ⊢
      rw [ih, hexact, List.sum_cons, add_assoc]

theorem divide_cluster_pop (fl : FloatOps R) (c : Cluster R) :
    (divide_cluster fl c).pop = c.pop := by
  unfold divide_cluster; split <;> rfl

theorem divide_cluster_id (fl : FloatOps R) (c : Cluster R) :
    (divide_cluster fl c).id = c.id := by
  unfold divide_cluster; split <;> rfl

theorem recalculate_clusters_eq (fl : FloatOps R) (k : KMeans R)
    (hne : k.clusters ≠ []) (hid : ids_are_indices k.clusters) :
    ∃ cs', accumulate fl (assigned fl k k.points) (reset_clusters k.clusters) = some cs' ∧
      recalculate_clusters fl k = some ⟨assigned fl k k.points, divide_clusters fl cs'⟩ ∧
      cs'.length = k.clusters.length ∧
      (cs'.map fun c => c.id) = (k.clusters.map fun c => c.id) ∧
      (cs'.map fun c => c.pop).sum = k.points.length ∧
      ∀ (i : Nat) (c : Cluster R), cs'[i]? = some c →
        c.pop = ((assigned fl k k.points).filter fun p => decide (p.cluster_id = i)).length ∧
        c.mean.x = fsum fl 0 (((assigned fl k k.points).filter
          fun p => decide (p.cluster_id = i)).map fun p => p.x) ∧
        c.mean.y = fsum fl 0 (((assigned fl k k.points).filter
          fun p => decide (p.cluster_id = i)).map fun p => p.y) := by
  have hlr : (reset_clusters k.clusters).length = k.clusters.length := by simp [reset_clusters]
  obtain ⟨cs', hacc, hl, hids, hsum, hper⟩ := accumulate_spec fl (assigned fl k k.points)
    (reset_clusters k.clusters) (by
      intro p hp
      simp only [assigned, List.mem_map] at hp
      obtain ⟨q, _, rfl⟩ := hp
      rw [hlr]
      exact closest_index_lt fl k.clusters q hne)
  refine ⟨cs', hacc, ?_, by rw [hl, hlr], ?_, ?_, ?_⟩
  · simp only [recalculate_clusters, assign_points_eq fl k hne hid, hacc]
  · rw [hids]; simp [reset_clusters]
  · have h0 : ((reset_clusters k.clusters).map fun c => c.pop).sum = 0 := by
      simp [reset_clusters, Function.comp_def]
    rw [hsum, h0]; simp [assigned]
  · intro i c hc
    have hi : i < (reset_clusters k.clusters).length := by
      rw [← hl]
      by_contra hn
      rw [List.getElem?_eq_none (by omega)] at hc
      cases hc
    obtain ⟨c', hc', hpop, hx, hy⟩ := hper i _ (List.getElem?_eq_getElem hi)
    rw [hc] at hc'
    cases hc'
    refine ⟨?_, ?_, ?_⟩
    · rw [hpop]; simp [reset_clusters]
    · rw [hx]; simp [reset_clusters, Point.mk2]
    · rw [hy]; simp [reset_clusters, Point.mk2]

theorem find_if_spec {α : Type} (p : α → Bool) :
    ∀ v : List α, find_if p v ≤ v.length ∧
      v.filter (fun a => !p a) =
        v.take (find_if p v) ++ (v.drop (find_if p v + 1)).filter (fun a => !p a)
  | [] => by simp [find_if]
  | a :: as => by
      obtain ⟨h1, h2⟩ := find_if_spec p as
      by_cases hp : p a = true
      · simp [find_if, hp]
      · have hp2 : p a = false := by simpa using hp
        refine ⟨by simp [find_if, hp2]; exact h1, ?_⟩
        simp only [find_if, hp2, Bool.false_eq_true, if_false, List.take_succ_cons,
          List.drop_succ_cons, List.cons_append]
        rw [← h2]
        simp [hp2]

theorem remove_if_loop_spec {α : Type} (p : α → Bool) :
    ∀ (n : Nat) (v : List α) (result first : Nat), result < first → first + n = v.length →
      (remove_if_loop p n v result first).1.take (remove_if_loop p n v result first).2 =
        v.take result ++ (v.drop first).filter (fun a => !p a)
  | 0, v, result, first, _, hl => by
      have : v.length ≤ first := by omega
      simp [remove_if_loop, List.drop_of_length_le this]
  | n + 1, v, result, first, hr, hl => by
      have hf : first < v.length := by omega
      have hget : v[first]? = some v[first] := List.getElem?_eq_getElem hf
      have hdrop : v.drop first = v[first] :: v.drop (first + 1) := List.drop_eq_getElem_cons hf
      generalize v[first] = a at hget hdrop
      by_cases hp : p a = true
      · have ih := remove_if_loop_spec p n v result (first + 1) (by omega) (by omega)
        simp only [remove_if_loop, hget, hp, if_true, ih, hdrop]
        simp [hp]
      · have hp2 : p a = false := by simpa using hp
        have ih := remove_if_loop_spec p n (v.set result a) (result + 1) (first + 1)
          (by omega) (by simp; omega)
        simp only [remove_if_loop, hget, hp2, Bool.false_eq_true, if_false, ih, hdrop]
        rw [take_succ_set a v result (by omega), List.drop_set_of_lt a v (by omega)]
        simp [hp2]

theorem erase_remove_if {α : Type} (p : α → Bool) (v : List α) :
    erase_to_end (remove_if p v) = v.filter (fun a => !p a) := by
  obtain ⟨h1, h2⟩ := find_if_spec p v
  by_cases he : find_if p v = v.length
  · rw [h2, he, List.drop_of_length_le (Nat.le_succ _)]
    simp [erase_to_end, remove_if, he]
  · have hs := remove_if_loop_spec p (v.length - (find_if p v + 1)) v (find_if p v)
      (find_if p v + 1) (by omega) (by omega)
    rw [h2]
    simpa [erase_to_end, remove_if, he] using hs

/-- With no cluster and at least one point the first `find_closest_cluster` dereferences
`clusters.begin()` of an empty vector. -/
theorem recalculate_clusters_no_cluster (fl : FloatOps R) (p : Point R) (ps : List (Point R)) :
    recalculate_clusters fl ⟨p :: ps, []⟩ = none := by
  simp [recalculate_clusters, assign_points, find_closest_cluster, fill_dist]

/-- With `point_count = 0` and at least one cluster the constructor reads `points[j]` from
the empty vector for whatever `j` is drawn. -/
theorem ctor_no_points (fl : FloatOps R) (cluster_count : Nat) (g : Gen) :
    KMeans.ctor fl 0 (cluster_count + 1) g = none := by
  simp [KMeans.ctor, randomize_points, randomize_range, List.replicate_succ, init_clusters]

theorem randomize_range_length (fl : FloatOps R) (min max : Point R) :
    ∀ (pts : List (Point R)) (g : Gen), (randomize_range fl min max pts g).1.length = pts.length
  | [], _ => rfl
  | _ :: pts, g => by simp [randomize_range, randomize_range_length fl min max pts]

theorem size_minus_one_lt (n w : Nat) (hn : 1 ≤ n) :
    (uniform_int_distribution 0 ((n + 2 ^ 64 - 1) % 2 ^ 64) ⟨fun _ => w, 0⟩).1 < n := by
  have h1 : (n + 2 ^ 64 - 1) % 2 ^ 64 ≤ n - 1 := by
    have : n + 2 ^ 64 - 1 = (n - 1) + 2 ^ 64 := by omega
    rw [this, Nat.add_mod_right]
    exact Nat.mod_le _ _
  have h2 : w % ((n + 2 ^ 64 - 1) % 2 ^ 64 - 0 + 1) < (n + 2 ^ 64 - 1) % 2 ^ 64 - 0 + 1 :=
    Nat.mod_lt _ (by omega)
  simp only [uniform_int_distribution, Gen.next]
  omega

theorem uniform_int_lt (n : Nat) (g : Gen) (hn : 1 ≤ n) :
    (uniform_int_distribution 0 ((n + 2 ^ 64 - 1) % 2 ^ 64) g).1 < n :=
  size_minus_one_lt n (g.draws g.pos) hn

theorem init_clusters_spec (points : List (Point R)) (hp : points ≠ []) :
    ∀ (cs : List (Cluster R)) (i : Nat) (g : Gen),
      ∃ r, init_clusters points cs i g = some r ∧ r.1.length = cs.length ∧
        (r.1.map fun c => c.id) = List.range' i cs.length ∧
        ∀ c ∈ r.1, c.mean ∈ points
  | [], i, g => ⟨([], g), rfl, rfl, rfl, by simp⟩
  | c :: cs, i, g => by
      have hn : 1 ≤ points.length := by
        cases points with
        | nil => exact absurd rfl hp
        | cons a as => simp
      have hj := uniform_int_lt points.length g hn
      have hget := List.getElem?_eq_getElem hj
      have hmem := List.getElem_mem hj
      generalize points[(uniform_int_distribution 0 ((points.length + 2 ^ 64 - 1) % 2 ^ 64) g).1]
        = p at hget hmem
      obtain ⟨r, hr, hl, hids, hmean⟩ := init_clusters_spec points hp cs (i + 1)
        (uniform_int_distribution 0 ((points.length + 2 ^ 64 - 1) % 2 ^ 64) g).2
      refine ⟨({ c with mean := p, id := i } :: r.1, r.2), ?_, by simp [hl], ?_, ?_⟩
      · simp only [init_clusters, hget, hr]
      · simp [hids, List.range'_succ]
      · intro c' hc'
        rcases List.mem_cons.mp hc' with h | h
        · rw [h]; exact hmem
        · exact hmean c' h

theorem ctor_spec (fl : FloatOps R) (point_count cluster_count : Nat) (g : Gen)
    (hpc : 1 ≤ point_count) :
    ∃ r, KMeans.ctor fl point_count cluster_count g = some r ∧
      r.1.points.length = point_count ∧ r.1.clusters.length = cluster_count ∧
      ids_are_indices r.1.clusters ∧ ∀ c ∈ r.1.clusters, c.mean ∈ r.1.points := by
  have hlen : (randomize_range fl (Point.mk2 (0 : R) 0) (Point.mk2 1 1)
      (List.replicate point_count Point.zero) g).1.length = point_count := by
    simp [randomize_range_length]
  have hne : (randomize_range fl (Point.mk2 (0 : R) 0) (Point.mk2 1 1)
      (List.replicate point_count Point.zero) g).1 ≠ [] := by
    intro h
    rw [h] at hlen
    simp at hlen
    omega
  obtain ⟨r, hr, hl, hids, hmean⟩ := init_clusters_spec _ hne
    (List.replicate cluster_count (Cluster.zero (R := R))) 0
    (randomize_range fl (Point.mk2 (0 : R) 0) (Point.mk2 1 1)
      (List.replicate point_count Point.zero) g).2
  have hl2 : r.1.length = cluster_count := by simpa using hl
  refine ⟨(⟨(randomize_range fl (Point.mk2 (0 : R) 0) (Point.mk2 1 1)
      (List.replicate point_count Point.zero) g).1, r.1⟩, r.2), ?_, hlen, hl2, ?_, hmean⟩
  · simp only [KMeans.ctor, randomize_points, hr]
  · simp only [ids_are_indices, hids, hl, List.range_eq_range']

theorem accumulate_ids (fl : FloatOps R) :
    ∀ (pts : List (Point R)) (cs cs' : List (Cluster R)), accumulate fl pts cs = some cs' →
      (cs'.map fun c => c.id) = (cs.map fun c => c.id)
  | [], cs, cs', h => by
      simp only [accumulate, Option.some.injEq] at h
      rw [h]
  | pt :: pts, cs, cs', h => by
      simp only [accumulate] at h
      cases hc : cs[pt.cluster_id]? with
      | none => rw [hc] at h; cases h
      | some c =>
          rw [hc] at h
          rw [accumulate_ids fl pts _ cs' h]
          exact map_set_same _ _ cs _ c hc rfl

theorem recalculate_clusters_ids (fl : FloatOps R) (k k' : KMeans R)
    (h : recalculate_clusters fl k = some k') :
    (k'.clusters.map fun c => c.id) = (k.clusters.map fun c => c.id) := by
  cases ha : assign_points fl k k.points with
  | none => simp [recalculate_clusters, ha] at h
  | some pts =>
      cases hb : accumulate fl pts (reset_clusters k.clusters) with
      | none => simp [recalculate_clusters, ha, hb] at h
      | some cs =>
          simp only [recalculate_clusters, ha, hb, Option.some.injEq] at h
          rw [← h]
          have h1 := accumulate_ids fl pts _ cs hb
          simp only [divide_clusters, List.map_map, Function.comp_def, divide_cluster_id, h1]
          simp [reset_clusters, Function.comp_def]

theorem ids_of_map_eq (cs cs' : List (Cluster R))
    (h : (cs'.map fun c => c.id) = (cs.map fun c => c.id)) (hid : ids_are_indices cs) :
    ids_are_indices cs' := by
  have hl : cs'.length = cs.length := by simpa using congrArg List.length h
  simp only [ids_are_indices, h, hl]
  exact hid

theorem add_cluster_ids (k : KMeans R) (hid : ids_are_indices k.clusters) :
    ids_are_indices (add_cluster k).clusters := by
  simp only [ids_are_indices] at hid
  simp [ids_are_indices, add_cluster, hid, List.range_succ]

theorem remove_last_cluster_ids (k : KMeans R) (hid : ids_are_indices k.clusters) :
    ids_are_indices (remove_last_cluster k).clusters := by
  unfold remove_last_cluster
  split
  · simp only [ids_are_indices] at hid
    simp only [ids_are_indices, List.map_take, hid, List.length_take, List.take_range]
  · exact hid

theorem add_points_clusters (fl : FloatOps R) (k : KMeans R) (added : Nat) (min max : Point R)
    (g : Gen) : (add_points fl k added min max g).1.clusters = k.clusters := rfl

theorem handle_event_ids (fl : FloatOps R) (ev : Event R) (s s' : App R)
    (hid : ids_are_indices s.k.clusters) (h : handle_event fl ev s = some s') :
    ids_are_indices s'.k.clusters := by
  cases ev with
  | KeySpace =>
      simp only [handle_event] at h
      cases hr : recalculate_clusters fl s.k with
      | none => rw [hr] at h; cases h
      | some k' =>
          rw [hr] at h
          simp only [Option.some.injEq] at h
          rw [← h]
          exact ids_of_map_eq _ _ (recalculate_clusters_ids fl s.k k' hr) hid
  | KeyR =>
      injection h with h
      subst h
      exact hid
  | KeyAdd =>
      injection h with h
      subst h
      have hc := add_points_clusters fl s.k 128 (Point.mk2 0 0) (Point.mk2 1 1) s.gen
      rw [← hc] at hid
      exact hid
  | KeySubtract =>
      injection h with h
      subst h
      exact hid
  | KeyUp =>
      injection h with h
      subst h
      exact add_cluster_ids s.k hid
  | KeyDown =>
      injection h with h
      subst h
      exact remove_last_cluster_ids s.k hid
  | MouseLeftPressed x y =>
      injection h with h
      subst h
      exact hid
  | MouseRightPressed x y =>
      injection h with h
      subst h
      exact hid
  | MouseRightReleased =>
      injection h with h
      subst h
      exact hid
  | MouseMoved x y =>
      simp only [handle_event] at h
      split at h
      · simp only [Option.some.injEq] at h
        rw [← h]; exact hid
      · simp only [Option.some.injEq] at h
        rw [← h]; exact hid

theorem run_events_ids (fl : FloatOps R) :
    ∀ (evs : List (Event R)) (s s' : App R), ids_are_indices s.k.clusters →
      run_events fl evs s = some s' → ids_are_indices s'.k.clusters
  | [], s, s', hid, h => by
      simp only [run_events, Option.some.injEq] at h
      rw [← h]; exact hid
  | ev :: evs, s, s', hid, h => by
      simp only [run_events] at h
      cases he : handle_event fl ev s with
      | none => rw [he] at h; cases h
      | some s1 =>
          rw [he] at h
          exact run_events_ids fl evs s1 s' (handle_event_ids fl ev s s1 hid he) h

theorem handle_event_progress (fl : FloatOps R) (ev : Event R) (s : App R)
    (hid : ids_are_indices s.k.clusters) (hsp : ev = Event.KeySpace → s.k.clusters ≠ []) :
    ∃ s', handle_event fl ev s = some s' := by
  cases ev with
  | KeySpace =>
      obtain ⟨cs', _, hk, _⟩ := recalculate_clusters_eq fl s.k (hsp rfl) hid
      exact ⟨{ s with k := ⟨assigned fl s.k s.k.points, divide_clusters fl cs'⟩ }, by
        simp only [handle_event, hk]⟩
  | MouseMoved x y =>
      simp only [handle_event]
      split <;> exact ⟨_, rfl⟩
  | _ => exact ⟨_, rfl⟩

theorem round32_zero : round32 0 = 0 := by simp [round32]

theorem round32_neg (q : ℚ) : round32 (-q) = -round32 q := by
  by_cases h0 : q.num = 0
  · simp [round32, h0]
  · rcases lt_or_gt_of_ne h0 with h | h
    · have h2 : ¬ (0 < q.num) := by omega
      simp [round32, h0, h, h2, Rat.den_neg_eq_den]
    · have h2 : ¬ (q.num < 0) := by omega
      simp [round32, h0, h, h2, Rat.den_neg_eq_den]

theorem round32_natCast (n : ℕ) (hn : n < 2 ^ 24) : round32 (n : ℚ) = n := by
  by_cases h0 : n = 0
  · simp [round32, h0]
  · have he : Nat.log2 n < 24 := (Nat.log2_lt h0).mpr hn
    have hle : 2 ^ Nat.log2 n ≤ n := Nat.log2_self_le h0
    have hl1 : Nat.log2 1 = 0 := by simp [Nat.log2]
    have hfl : floor_log2 n 1 = (Nat.log2 n : ℤ) := by
      simp [floor_log2, hl1, hle]
    have hu : max ((Nat.log2 n : ℤ) - 23) (-149) = (Nat.log2 n : ℤ) - 23 := by
      apply max_eq_left; omega
    have hneg : (-((Nat.log2 n : ℤ) - 23)).toNat = 23 - Nat.log2 n := by omega
    have hpos : ((Nat.log2 n : ℤ) - 23).toNat = 0 := by omega
    have hr : round_half_even (n * 2 ^ (23 - Nat.log2 n)) 1 = n * 2 ^ (23 - Nat.log2 n) := by
      simp [round_half_even, Nat.mod_one]
    have hparts : round32_parts n 1 = (n * 2 ^ (23 - Nat.log2 n), (Nat.log2 n : ℤ) - 23) := by
      simp only [round32_parts, hfl, hu, hneg, hpos, pow_zero, Nat.mul_one, hr]
    have hn0 : ((n : ℚ)).num ≠ 0 := by simpa using h0
    have hnn : ¬ ((n : ℚ)).num < 0 := by simp
    rw [round32, if_neg hn0, if_neg hnn]
    simp only [Rat.num_natCast, Int.natAbs_ofNat, Rat.den_natCast, hparts, one_mul]
    have h2 : (2 : ℚ) ^ ((Nat.log2 n : ℤ) - 23) = 2 ^ Nat.log2 n / 2 ^ 23 := by
      rw [zpow_sub₀ (by norm_num : (2 : ℚ) ≠ 0), zpow_natCast]
      norm_cast
    rw [h2]
    push_cast
    have h3 : (2 : ℚ) ^ (23 - Nat.log2 n) * 2 ^ Nat.log2 n = 2 ^ 23 := by
      rw [← pow_add]
      congr 1
      omega
    field_simp
    rw [mul_assoc, h3]

theorem round32_intCast (z : ℤ) (hz : |z| < 2 ^ 24) : round32 (z : ℚ) = z := by
  rcases le_or_lt 0 z with h | h
  · obtain ⟨n, rfl⟩ := Int.eq_ofNat_of_zero_le h
    have hn : n < 2 ^ 24 := by
      have := abs_of_nonneg h ▸ hz
      exact_mod_cast this
    simpa using round32_natCast n hn
  · obtain ⟨n, hn⟩ := Int.eq_ofNat_of_zero_le (by omega : 0 ≤ -z)
    have hz2 : z = -(n : ℤ) := by omega
    have hn2 : n < 2 ^ 24 := by
      have h1 : |z| = -z := abs_of_neg h
      have : (n : ℤ) < 2 ^ 24 := by omega
      exact_mod_cast this
    rw [hz2]
    push_cast
    rw [round32_neg, round32_natCast n hn2]

theorem round32_eval (q : ℚ) (n d m : ℕ) (u : ℤ) (hnum : q.num = (n : ℤ)) (hden : q.den = d)
    (hn : n ≠ 0) (hp : round32_parts n d = (m, u)) : round32 q = (m : ℚ) * 2 ^ u := by
  have h0 : q.num ≠ 0 := by rw [hnum]; exact_mod_cast hn
  have h1 : ¬ q.num < 0 := by rw [hnum]; simp
  rw [round32, if_neg h0, if_neg h1]
  simp only [hnum, Int.natAbs_ofNat, hden, hp, one_mul]

theorem sqrt32_eval (q : ℚ) (n d m : ℕ) (u : ℤ) (hnum : q.num = (n : ℤ)) (hden : q.den = d)
    (hn : n ≠ 0) (hp : sqrt32_parts n d = (m, u)) : sqrt32 q = (m : ℚ) * 2 ^ u := by
  have h1 : ¬ q.num ≤ 0 := by
    rw [hnum]
    have : 0 < (n : ℤ) := by exact_mod_cast Nat.pos_of_ne_zero hn
    omega
  rw [sqrt32, if_neg h1]
  simp only [hnum, Int.natAbs_ofNat, hden, hp]

theorem example_model_recompute (fl : FloatOps R)
    (hint : ∀ z : ℤ, |z| < 2 ^ 24 → fl.rnd (z : R) = z) (h : fl.sqrt 0 < fl.sqrt 2) :
    recalculate_clusters fl (example_model (R := R)) =
      some ⟨[⟨0, 0, 0⟩, ⟨0, 1, 0⟩, ⟨1, 0, 0⟩, ⟨1, 1, 1⟩],
        [⟨⟨fl.rnd (1 / 3), fl.rnd (1 / 3), 0⟩, 3, 0⟩, ⟨⟨1, 1, 0⟩, 1, 1⟩]⟩ := by
  have h2 : ¬ fl.sqrt 2 < fl.sqrt 0 := not_lt_of_lt h
  have r0 : fl.rnd 0 = 0 := by simpa using hint 0 (by norm_num)
  have r1 : fl.rnd 1 = 1 := by simpa using hint 1 (by norm_num)
  have rm1 : fl.rnd (-1) = -1 := by simpa using hint (-1) (by norm_num)
  have r2 : fl.rnd 2 = 2 := by simpa using hint 2 (by norm_num)
  have r3 : fl.rnd 3 = 3 := by simpa using hint 3 (by norm_num)
  have hassign : assign_points fl (example_model (R := R)) (example_model (R := R)).points =
      some [⟨0, 0, 0⟩, ⟨0, 1, 0⟩, ⟨1, 0, 0⟩, ⟨1, 1, 1⟩] := by
    norm_num [example_model, assign_points, find_closest_cluster, fill_dist, min_element,
      min_element_loop, distance, sqr, List.replicate, r0, r1, rm1, r2, h, h2]
  have hacc : accumulate fl [⟨0, 0, 0⟩, ⟨0, 1, 0⟩, ⟨1, 0, 0⟩, ⟨1, 1, 1⟩]
      (reset_clusters (example_model (R := R)).clusters) =
      some [⟨⟨1, 1, 0⟩, 3, 0⟩, ⟨⟨1, 1, 0⟩, 1, 1⟩] := by
    norm_num [example_model, reset_clusters, accumulate, Point.mk2, r0, r1]
  simp only [recalculate_clusters, hassign, hacc]
  norm_num [divide_clusters, divide_cluster, r1, r3]

theorem drift_model_recompute (fl : FloatOps R)
    (hint : ∀ z : ℤ, |z| < 2 ^ 24 → fl.rnd (z : R) = z)
    (e16 : fl.sqrt 16 = 4) (e36 : fl.sqrt 36 = 6) (e100 : fl.sqrt 100 = 10)
    (e400 : fl.sqrt 400 = 20) :
    recalculate_clusters fl (drift_model (R := R)) =
      some ⟨[⟨4, 0, 0⟩, ⟨6, 0, 1⟩, ⟨20, 0, 1⟩], [⟨⟨4, 0, 0⟩, 1, 0⟩, ⟨⟨13, 0, 0⟩, 2, 1⟩]⟩ := by
  have r0 : fl.rnd 0 = 0 := by simpa using hint 0 (by norm_num)
  have r1 : fl.rnd 1 = 1 := by simpa using hint 1 (by norm_num)
  have r2 : fl.rnd 2 = 2 := by simpa using hint 2 (by norm_num)
  have r4 : fl.rnd 4 = 4 := by simpa using hint 4 (by norm_num)
  have r6 : fl.rnd 6 = 6 := by simpa using hint 6 (by norm_num)
  have r10 : fl.rnd 10 = 10 := by simpa using hint 10 (by norm_num)
  have r13 : fl.rnd 13 = 13 := by simpa using hint 13 (by norm_num)
  have r16 : fl.rnd 16 = 16 := by simpa using hint 16 (by norm_num)
  have r20 : fl.rnd 20 = 20 := by simpa using hint 20 (by norm_num)
  have r26 : fl.rnd 26 = 26 := by simpa using hint 26 (by norm_num)
  have r36 : fl.rnd 36 = 36 := by simpa using hint 36 (by norm_num)
  have r100 : fl.rnd 100 = 100 := by simpa using hint 100 (by norm_num)
  have r400 : fl.rnd 400 = 400 := by simpa using hint 400 (by norm_num)
  have rm4 : fl.rnd (-4) = -4 := by simpa using hint (-4) (by norm_num)
  have rm6 : fl.rnd (-6) = -6 := by simpa using hint (-6) (by norm_num)
  have hassign : assign_points fl (drift_model (R := R)) (drift_model (R := R)).points =
      some [⟨4, 0, 0⟩, ⟨6, 0, 1⟩, ⟨20, 0, 1⟩] := by
    norm_num [drift_model, assign_points, find_closest_cluster, fill_dist, min_element,
      min_element_loop, distance, sqr, List.replicate, r0, r4, r6, r10, r16, r20, r36, r100,
      r400, rm4, rm6, e16, e36, e100, e400]
  have hacc : accumulate fl [⟨4, 0, 0⟩, ⟨6, 0, 1⟩, ⟨20, 0, 1⟩]
      (reset_clusters (drift_model (R := R)).clusters) =
      some [⟨⟨4, 0, 0⟩, 1, 0⟩, ⟨⟨26, 0, 0⟩, 2, 1⟩] := by
    norm_num [drift_model, reset_clusters, accumulate, Point.mk2, r0, r4, r6, r26]
  simp only [recalculate_clusters, hassign, hacc]
  norm_num [divide_clusters, divide_cluster, r0, r1, r2, r4, r13]

/-- The binary32 value nearest to `1/3`. -/
theorem round32_third : round32 (1 / 3) = 11184811 / 33554432 := by
  have h : round32 (1 / 3) = 11184811 / 33554432 := by
    have e : round32 (1 / 3) = round32 (1 / 3) := by norm_num
    have p : round32_parts 1 3 = (11184811, -25) := by
      have hfl : floor_log2 1 3 = -2 := by norm_num [floor_log2, Nat.log2]
      simp [round32_parts, hfl, round_half_even]
    rw [e, round32_eval (1 / 3) 1 3 11184811 (-25) (by norm_num) (by norm_num)
      (by norm_num) p]
    norm_num
  exact h

/-- The literal `0.03f`: the binary32 value nearest to `0.03`. -/
theorem round32_radius : round32 (3 / 100) = 16106127 / 536870912 := by
  have h : round32 (3 / 100) = 16106127 / 536870912 := by
    have e : round32 (3 / 100) = round32 (3 / 100) := by norm_num
    have p : round32_parts 3 100 = (16106127, -29) := by
      have hfl : floor_log2 3 100 = -6 := by norm_num [floor_log2, Nat.log2]
      simp [round32_parts, hfl, round_half_even]
    rw [e, round32_eval (3 / 100) 3 100 16106127 (-29) (by norm_num) (by norm_num)
      (by norm_num) p]
    norm_num
  exact h

/-- Square roots the concrete runs need; the root of 2 is rounded, the others are exact. -/
theorem sqrt32_values :
    sqrt32 2 = 11863283 / 8388608 ∧ sqrt32 4 = 2 ∧ sqrt32 16 = 4 ∧ sqrt32 36 = 6 ∧
      sqrt32 49 = 7 ∧
        sqrt32 100 = 10 ∧ sqrt32 400 = 20 := by
  have h0 : sqrt32 (2) = 11863283 / 8388608 := by
    have p : sqrt32_parts 2 1 = (11863283, -23) := by
      have hfl : floor_log2 2 1 = 1 := by norm_num [floor_log2, Nat.log2]
      simp [sqrt32_parts, hfl]
      norm_num
      decide
    rw [sqrt32_eval (2) 2 1 11863283 (-23) (by norm_num) (by norm_num)
      (by norm_num) p]
    norm_num
  have h1 : sqrt32 (4) = 2 := by
    have p : sqrt32_parts 4 1 = (8388608, -22) := by
      have hfl : floor_log2 4 1 = 2 := by norm_num [floor_log2, Nat.log2]
      simp [sqrt32_parts, hfl]
      norm_num
      decide
    rw [sqrt32_eval (4) 4 1 8388608 (-22) (by norm_num) (by norm_num)
      (by norm_num) p]
    norm_num
  have h2 : sqrt32 (16) = 4 := by
    have p : sqrt32_parts 16 1 = (8388608, -21) := by
      have hfl : floor_log2 16 1 = 4 := by norm_num [floor_log2, Nat.log2]
      simp [sqrt32_parts, hfl]
      norm_num
      decide
    rw [sqrt32_eval (16) 16 1 8388608 (-21) (by norm_num) (by norm_num)
      (by norm_num) p]
    norm_num
  have h3 : sqrt32 (36) = 6 := by
    have p : sqrt32_parts 36 1 = (12582912, -21) := by
      have hfl : floor_log2 36 1 = 5 := by norm_num [floor_log2, Nat.log2]
      simp [sqrt32_parts, hfl]
      norm_num
      decide
    rw [sqrt32_eval (36) 36 1 12582912 (-21) (by norm_num) (by norm_num)
      (by norm_num) p]
    norm_num
  have h4 : sqrt32 (49) = 7 := by
    have p : sqrt32_parts 49 1 = (14680064, -21) := by
      have hfl : floor_log2 49 1 = 5 := by norm_num [floor_log2, Nat.log2]
      simp [sqrt32_parts, hfl]
      norm_num
      decide
    rw [sqrt32_eval (49) 49 1 14680064 (-21) (by norm_num) (by norm_num)
      (by norm_num) p]
    norm_num
  have h5 : sqrt32 (100) = 10 := by
    have p : sqrt32_parts 100 1 = (10485760, -20) := by
      have hfl : floor_log2 100 1 = 6 := by norm_num [floor_log2, Nat.log2]
      simp [sqrt32_parts, hfl]
      norm_num
      decide
    rw [sqrt32_eval (100) 100 1 10485760 (-20) (by norm_num) (by norm_num)
      (by norm_num) p]
    norm_num
  have h6 : sqrt32 (400) = 20 := by
    have p : sqrt32_parts 400 1 = (10485760, -19) := by
      have hfl : floor_log2 400 1 = 8 := by norm_num [floor_log2, Nat.log2]
      simp [sqrt32_parts, hfl]
      norm_num
      decide
    rw [sqrt32_eval (400) 400 1 10485760 (-19) (by norm_num) (by norm_num)
      (by norm_num) p]
    norm_num
  exact ⟨h0, h1, h2, h3, h4, h5, h6⟩

/-- The distance the code computes from the origin to the first mean of `tie_model`. -/
theorem tie_distance_first :
    distance binary32 (2104939 / 8388608) (582929 / 2097152) 0 0 = 6282569 / 16777216 := by
  have hdx : round32 (0 - (2104939 / 8388608)) = -2104939 / 8388608 := by
    have e : round32 (0 - (2104939 / 8388608)) = round32 (-(2104939 / 8388608)) := by norm_num
    have p : round32_parts 2104939 8388608 = (8419756, -25) := by
      have hfl : floor_log2 2104939 8388608 = -2 := by norm_num [floor_log2, Nat.log2]
      simp [round32_parts, hfl, round_half_even]
    rw [e, round32_neg, round32_eval (2104939 / 8388608) 2104939 8388608 8419756 (-25) (by
        norm_num) (by norm_num)
      (by norm_num) p]
    norm_num
  have hdy : round32 (0 - (582929 / 2097152)) = -582929 / 2097152 := by
    have e : round32 (0 - (582929 / 2097152)) = round32 (-(582929 / 2097152)) := by norm_num
    have p : round32_parts 582929 2097152 = (9326864, -25) := by
      have hfl : floor_log2 582929 2097152 = -2 := by norm_num [floor_log2, Nat.log2]
      simp [round32_parts, hfl, round_half_even]
    rw [e, round32_neg, round32_eval (582929 / 2097152) 582929 2097152 9326864 (-25) (by norm_num)
        (by norm_num)
      (by norm_num) p]
    norm_num
  have hsx : round32 ((-2104939 / 8388608) * (-2104939 / 8388608)) = 2112755 / 33554432 := by
    have e : round32 ((-2104939 / 8388608) * (-2104939 / 8388608)) = round32 (4430768193721 /
        70368744177664) := by norm_num
    have p : round32_parts 4430768193721 70368744177664 = (8451020, -27) := by
      have hfl : floor_log2 4430768193721 70368744177664 = -4 := by norm_num [floor_log2, Nat.log2]
      simp [round32_parts, hfl, round_half_even]
    rw [e, round32_eval (4430768193721 / 70368744177664) 4430768193721 70368744177664 8451020 (-27)
        (by norm_num) (by norm_num)
      (by norm_num) p]
    norm_num
  have hsy : round32 ((-582929 / 2097152) * (-582929 / 2097152)) = 10370063 / 134217728 := by
    have e : round32 ((-582929 / 2097152) * (-582929 / 2097152)) = round32 (339806219041 /
        4398046511104) := by norm_num
    have p : round32_parts 339806219041 4398046511104 = (10370063, -27) := by
      have hfl : floor_log2 339806219041 4398046511104 = -4 := by norm_num [floor_log2, Nat.log2]
      simp [round32_parts, hfl, round_half_even]
    rw [e, round32_eval (339806219041 / 4398046511104) 339806219041 4398046511104 10370063 (-27)
        (by norm_num) (by norm_num)
      (by norm_num) p]
    norm_num
  have hsm : round32 ((2112755 / 33554432) + (10370063 / 134217728)) = 4705271 / 33554432 := by
    have e : round32 ((2112755 / 33554432) + (10370063 / 134217728)) = round32 (18821083 /
        134217728) := by norm_num
    have p : round32_parts 18821083 134217728 = (9410542, -26) := by
      have hfl : floor_log2 18821083 134217728 = -3 := by norm_num [floor_log2, Nat.log2]
      simp [round32_parts, hfl, round_half_even]
    rw [e, round32_eval (18821083 / 134217728) 18821083 134217728 9410542 (-26) (by norm_num) (by
        norm_num)
      (by norm_num) p]
    norm_num
  have hv : sqrt32 (4705271 / 33554432) = 6282569 / 16777216 := by
    have p : sqrt32_parts 4705271 33554432 = (12565138, -25) := by
      have hfl : floor_log2 4705271 33554432 = -3 := by norm_num [floor_log2, Nat.log2]
      simp [sqrt32_parts, hfl]
      norm_num
      decide
    rw [sqrt32_eval (4705271 / 33554432) 4705271 33554432 12565138 (-25) (by norm_num) (by norm_num)
      (by norm_num) p]
    norm_num
  show sqrt32 (round32 (round32 (round32 (0 - (2104939 / 8388608)) * round32 (0 - (2104939 /
      8388608))) +
    round32 (round32 (0 - (582929 / 2097152)) * round32 (0 - (582929 / 2097152))))) = 6282569 /
        16777216
  rw [hdx, hdy, hsx, hsy, hsm, hv]

/-- The distance the code computes from the origin to the second mean of `tie_model`. -/
theorem tie_distance_second :
    distance binary32 (1183171 / 8388608) (363743 / 1048576) 0 0 = 12565137 / 33554432 := by
  have hdx : round32 (0 - (1183171 / 8388608)) = -1183171 / 8388608 := by
    have e : round32 (0 - (1183171 / 8388608)) = round32 (-(1183171 / 8388608)) := by norm_num
    have p : round32_parts 1183171 8388608 = (9465368, -26) := by
      have hfl : floor_log2 1183171 8388608 = -3 := by norm_num [floor_log2, Nat.log2]
      simp [round32_parts, hfl, round_half_even]
    rw [e, round32_neg, round32_eval (1183171 / 8388608) 1183171 8388608 9465368 (-26) (by
        norm_num) (by norm_num)
      (by norm_num) p]
    norm_num
  have hdy : round32 (0 - (363743 / 1048576)) = -363743 / 1048576 := by
    have e : round32 (0 - (363743 / 1048576)) = round32 (-(363743 / 1048576)) := by norm_num
    have p : round32_parts 363743 1048576 = (11639776, -25) := by
      have hfl : floor_log2 363743 1048576 = -2 := by norm_num [floor_log2, Nat.log2]
      simp [round32_parts, hfl, round_half_even]
    rw [e, round32_neg, round32_eval (363743 / 1048576) 363743 1048576 11639776 (-25) (by norm_num)
        (by norm_num)
      (by norm_num) p]
    norm_num
  have hsx : round32 ((-1183171 / 8388608) * (-1183171 / 8388608)) = 10680341 / 536870912 := by
    have e : round32 ((-1183171 / 8388608) * (-1183171 / 8388608)) = round32 (1399893615241 /
        70368744177664) := by norm_num
    have p : round32_parts 1399893615241 70368744177664 = (10680341, -29) := by
      have hfl : floor_log2 1399893615241 70368744177664 = -6 := by norm_num [floor_log2, Nat.log2]
      simp [round32_parts, hfl, round_half_even]
    rw [e, round32_eval (1399893615241 / 70368744177664) 1399893615241 70368744177664 10680341
        (-29) (by norm_num) (by norm_num)
      (by norm_num) p]
    norm_num
  have hsy : round32 ((-363743 / 1048576) * (-363743 / 1048576)) = 16150997 / 134217728 := by
    have e : round32 ((-363743 / 1048576) * (-363743 / 1048576)) = round32 (132308970049 /
        1099511627776) := by norm_num
    have p : round32_parts 132308970049 1099511627776 = (16150997, -27) := by
      have hfl : floor_log2 132308970049 1099511627776 = -4 := by norm_num [floor_log2, Nat.log2]
      simp [round32_parts, hfl, round_half_even]
    rw [e, round32_eval (132308970049 / 1099511627776) 132308970049 1099511627776 16150997 (-27)
        (by norm_num) (by norm_num)
      (by norm_num) p]
    norm_num
  have hsm : round32 ((10680341 / 536870912) + (16150997 / 134217728)) = 9410541 / 67108864 := by
    have e : round32 ((10680341 / 536870912) + (16150997 / 134217728)) = round32 (75284329 /
        536870912) := by norm_num
    have p : round32_parts 75284329 536870912 = (9410541, -26) := by
      have hfl : floor_log2 75284329 536870912 = -3 := by norm_num [floor_log2, Nat.log2]
      simp [round32_parts, hfl, round_half_even]
    rw [e, round32_eval (75284329 / 536870912) 75284329 536870912 9410541 (-26) (by norm_num) (by
        norm_num)
      (by norm_num) p]
    norm_num
  have hv : sqrt32 (9410541 / 67108864) = 12565137 / 33554432 := by
    have p : sqrt32_parts 9410541 67108864 = (12565137, -25) := by
      have hfl : floor_log2 9410541 67108864 = -3 := by norm_num [floor_log2, Nat.log2]
      simp [sqrt32_parts, hfl]
      norm_num
      decide
    rw [sqrt32_eval (9410541 / 67108864) 9410541 67108864 12565137 (-25) (by norm_num) (by norm_num)
      (by norm_num) p]
    norm_num
  show sqrt32 (round32 (round32 (round32 (0 - (1183171 / 8388608)) * round32 (0 - (1183171 /
      8388608))) +
    round32 (round32 (0 - (363743 / 1048576)) * round32 (0 - (363743 / 1048576))))) = 12565137 /
        33554432
  rw [hdx, hdy, hsx, hsy, hsm, hv]

/-- The distance the code computes from the origin to the first point of `ring_model`: exactly
    `0.03f`. -/
theorem ring_distance_first :
    distance binary32 0 0 (1003201 / 536870912) (16074853 / 536870912) = 16106127 / 536870912 := by
  have hdx : round32 ((1003201 / 536870912) - 0) = 1003201 / 536870912 := by
    have e : round32 ((1003201 / 536870912) - 0) = round32 (1003201 / 536870912) := by norm_num
    have p : round32_parts 1003201 536870912 = (16051216, -33) := by
      have hfl : floor_log2 1003201 536870912 = -10 := by norm_num [floor_log2, Nat.log2]
      simp [round32_parts, hfl, round_half_even]
    rw [e, round32_eval (1003201 / 536870912) 1003201 536870912 16051216 (-33) (by norm_num) (by
        norm_num)
      (by norm_num) p]
    norm_num
  have hdy : round32 ((16074853 / 536870912) - 0) = 16074853 / 536870912 := by
    have e : round32 ((16074853 / 536870912) - 0) = round32 (16074853 / 536870912) := by norm_num
    have p : round32_parts 16074853 536870912 = (16074853, -29) := by
      have hfl : floor_log2 16074853 536870912 = -6 := by norm_num [floor_log2, Nat.log2]
      simp [round32_parts, hfl, round_half_even]
    rw [e, round32_eval (16074853 / 536870912) 16074853 536870912 16074853 (-29) (by norm_num) (by
        norm_num)
      (by norm_num) p]
    norm_num
  have hsx : round32 ((1003201 / 536870912) * (1003201 / 536870912)) = 1919579 / 549755813888 := by
    have e : round32 ((1003201 / 536870912) * (1003201 / 536870912)) = round32 (1006412246401 /
        288230376151711744) := by norm_num
    have p : round32_parts 1006412246401 288230376151711744 = (15356632, -42) := by
      have hfl : floor_log2 1006412246401 288230376151711744 = -19 := by norm_num [floor_log2,
          Nat.log2]
      simp [round32_parts, hfl, round_half_even]
    rw [e, round32_eval (1006412246401 / 288230376151711744) 1006412246401 288230376151711744
        15356632 (-42) (by norm_num) (by norm_num)
      (by norm_num) p]
    norm_num
  have hsy : round32 ((16074853 / 536870912) * (16074853 / 536870912)) = 7700947 / 8589934592 := by
    have e : round32 ((16074853 / 536870912) * (16074853 / 536870912)) = round32 (258400898971609 /
        288230376151711744) := by norm_num
    have p : round32_parts 258400898971609 288230376151711744 = (15401894, -34) := by
      have hfl : floor_log2 258400898971609 288230376151711744 = -11 := by norm_num [floor_log2,
          Nat.log2]
      simp [round32_parts, hfl, round_half_even]
    rw [e, round32_eval (258400898971609 / 288230376151711744) 258400898971609 288230376151711744
        15401894 (-34) (by norm_num) (by norm_num)
      (by norm_num) p]
    norm_num
  have hsm : round32 ((1919579 / 549755813888) + (7700947 / 8589934592)) = 15461881 / 17179869184
      := by
    have e : round32 ((1919579 / 549755813888) + (7700947 / 8589934592)) = round32 (494780187 /
        549755813888) := by norm_num
    have p : round32_parts 494780187 549755813888 = (15461881, -34) := by
      have hfl : floor_log2 494780187 549755813888 = -11 := by norm_num [floor_log2, Nat.log2]
      simp [round32_parts, hfl, round_half_even]
    rw [e, round32_eval (494780187 / 549755813888) 494780187 549755813888 15461881 (-34) (by
        norm_num) (by norm_num)
      (by norm_num) p]
    norm_num
  have hv : sqrt32 (15461881 / 17179869184) = 16106127 / 536870912 := by
    have p : sqrt32_parts 15461881 17179869184 = (16106127, -29) := by
      have hfl : floor_log2 15461881 17179869184 = -11 := by norm_num [floor_log2, Nat.log2]
      simp [sqrt32_parts, hfl]
      norm_num
      decide
    rw [sqrt32_eval (15461881 / 17179869184) 15461881 17179869184 16106127 (-29) (by norm_num) (by
        norm_num)
      (by norm_num) p]
    norm_num
  show sqrt32 (round32 (round32 (round32 ((1003201 / 536870912) - 0) * round32 ((1003201 /
      536870912) - 0)) +
    round32 (round32 ((16074853 / 536870912) - 0) * round32 ((16074853 / 536870912) - 0)))) =
        16106127 / 536870912
  rw [hdx, hdy, hsx, hsy, hsm, hv]

/-- The distance the code computes from the origin to the second point of `ring_model`: one unit in
    the last place below `0.03f`. -/
theorem ring_distance_second :
    distance binary32 0 0 (1000409 / 536870912) (16075027 / 536870912) = 8053063 / 268435456 := by
  have hdx : round32 ((1000409 / 536870912) - 0) = 1000409 / 536870912 := by
    have e : round32 ((1000409 / 536870912) - 0) = round32 (1000409 / 536870912) := by norm_num
    have p : round32_parts 1000409 536870912 = (16006544, -33) := by
      have hfl : floor_log2 1000409 536870912 = -10 := by norm_num [floor_log2, Nat.log2]
      simp [round32_parts, hfl, round_half_even]
    rw [e, round32_eval (1000409 / 536870912) 1000409 536870912 16006544 (-33) (by norm_num) (by
        norm_num)
      (by norm_num) p]
    norm_num
  have hdy : round32 ((16075027 / 536870912) - 0) = 16075027 / 536870912 := by
    have e : round32 ((16075027 / 536870912) - 0) = round32 (16075027 / 536870912) := by norm_num
    have p : round32_parts 16075027 536870912 = (16075027, -29) := by
      have hfl : floor_log2 16075027 536870912 = -6 := by norm_num [floor_log2, Nat.log2]
      simp [round32_parts, hfl, round_half_even]
    rw [e, round32_eval (16075027 / 536870912) 16075027 536870912 16075027 (-29) (by norm_num) (by
        norm_num)
      (by norm_num) p]
    norm_num
  have hsx : round32 ((1000409 / 536870912) * (1000409 / 536870912)) = 15271273 / 4398046511104 :=
      by
    have e : round32 ((1000409 / 536870912) * (1000409 / 536870912)) = round32 (1000818167281 /
        288230376151711744) := by norm_num
    have p : round32_parts 1000818167281 288230376151711744 = (15271273, -42) := by
      have hfl : floor_log2 1000818167281 288230376151711744 = -19 := by norm_num [floor_log2,
          Nat.log2]
      simp [round32_parts, hfl, round_half_even]
    rw [e, round32_eval (1000818167281 / 288230376151711744) 1000818167281 288230376151711744
        15271273 (-42) (by norm_num) (by norm_num)
      (by norm_num) p]
    norm_num
  have hsy : round32 ((16075027 / 536870912) * (16075027 / 536870912)) = 15402227 / 17179869184 :=
      by
    have e : round32 ((16075027 / 536870912) * (16075027 / 536870912)) = round32 (258406493050729 /
        288230376151711744) := by norm_num
    have p : round32_parts 258406493050729 288230376151711744 = (15402227, -34) := by
      have hfl : floor_log2 258406493050729 288230376151711744 = -11 := by norm_num [floor_log2,
          Nat.log2]
      simp [round32_parts, hfl, round_half_even]
    rw [e, round32_eval (258406493050729 / 288230376151711744) 258406493050729 288230376151711744
        15402227 (-34) (by norm_num) (by norm_num)
      (by norm_num) p]
    norm_num
  have hsm : round32 ((15271273 / 4398046511104) + (15402227 / 17179869184)) = 1932735 / 2147483648
      := by
    have e : round32 ((15271273 / 4398046511104) + (15402227 / 17179869184)) = round32 (3958241385
        / 4398046511104) := by norm_num
    have p : round32_parts 3958241385 4398046511104 = (15461880, -34) := by
      have hfl : floor_log2 3958241385 4398046511104 = -11 := by norm_num [floor_log2, Nat.log2]
      simp [round32_parts, hfl, round_half_even]
    rw [e, round32_eval (3958241385 / 4398046511104) 3958241385 4398046511104 15461880 (-34) (by
        norm_num) (by norm_num)
      (by norm_num) p]
    norm_num
  have hv : sqrt32 (1932735 / 2147483648) = 8053063 / 268435456 := by
    have p : sqrt32_parts 1932735 2147483648 = (16106126, -29) := by
      have hfl : floor_log2 1932735 2147483648 = -11 := by norm_num [floor_log2, Nat.log2]
      simp [sqrt32_parts, hfl]
      norm_num
      decide
    rw [sqrt32_eval (1932735 / 2147483648) 1932735 2147483648 16106126 (-29) (by norm_num) (by
        norm_num)
      (by norm_num) p]
    norm_num
  show sqrt32 (round32 (round32 (round32 ((1000409 / 536870912) - 0) * round32 ((1000409 /
      536870912) - 0)) +
    round32 (round32 ((16075027 / 536870912) - 0) * round32 ((16075027 / 536870912) - 0)))) =
        8053063 / 268435456
  rw [hdx, hdy, hsx, hsy, hsm, hv]

/-- The distance the code computes from the origin to `(0.03f, 0)`: exactly `0.03f`. -/
theorem ring_distance_third :
    distance binary32 0 0 (16106127 / 536870912) 0 = 16106127 / 536870912 := by
  have hdx : round32 ((16106127 / 536870912) - 0) = 16106127 / 536870912 := by
    have e : round32 ((16106127 / 536870912) - 0) = round32 (16106127 / 536870912) := by norm_num
    have p : round32_parts 16106127 536870912 = (16106127, -29) := by
      have hfl : floor_log2 16106127 536870912 = -6 := by norm_num [floor_log2, Nat.log2]
      simp [round32_parts, hfl, round_half_even]
    rw [e, round32_eval (16106127 / 536870912) 16106127 536870912 16106127 (-29) (by norm_num) (by
        norm_num)
      (by norm_num) p]
    norm_num
  have hdy : round32 (0 - 0) = 0 := by
    have e : round32 (0 - 0) = round32 0 := by norm_num
    rw [e, round32_zero]
  have hsx : round32 ((16106127 / 536870912) * (16106127 / 536870912)) = 7730941 / 8589934592 := by
    have e : round32 ((16106127 / 536870912) * (16106127 / 536870912)) = round32 (259407326940129 /
        288230376151711744) := by norm_num
    have p : round32_parts 259407326940129 288230376151711744 = (15461882, -34) := by
      have hfl : floor_log2 259407326940129 288230376151711744 = -11 := by norm_num [floor_log2,
          Nat.log2]
      simp [round32_parts, hfl, round_half_even]
    rw [e, round32_eval (259407326940129 / 288230376151711744) 259407326940129 288230376151711744
        15461882 (-34) (by norm_num) (by norm_num)
      (by norm_num) p]
    norm_num
  have hsy : round32 (0 * 0) = 0 := by
    have e : round32 (0 * 0) = round32 0 := by norm_num
    rw [e, round32_zero]
  have hsm : round32 ((7730941 / 8589934592) + 0) = 7730941 / 8589934592 := by
    have e : round32 ((7730941 / 8589934592) + 0) = round32 (7730941 / 8589934592) := by norm_num
    have p : round32_parts 7730941 8589934592 = (15461882, -34) := by
      have hfl : floor_log2 7730941 8589934592 = -11 := by norm_num [floor_log2, Nat.log2]
      simp [round32_parts, hfl, round_half_even]
    rw [e, round32_eval (7730941 / 8589934592) 7730941 8589934592 15461882 (-34) (by norm_num) (by
        norm_num)
      (by norm_num) p]
    norm_num
  have hv : sqrt32 (7730941 / 8589934592) = 16106127 / 536870912 := by
    have p : sqrt32_parts 7730941 8589934592 = (16106127, -29) := by
      have hfl : floor_log2 7730941 8589934592 = -11 := by norm_num [floor_log2, Nat.log2]
      simp [sqrt32_parts, hfl]
      norm_num
      decide
    rw [sqrt32_eval (7730941 / 8589934592) 7730941 8589934592 16106127 (-29) (by norm_num) (by
        norm_num)
      (by norm_num) p]
    norm_num
  show sqrt32 (round32 (round32 (round32 ((16106127 / 536870912) - 0) * round32 ((16106127 /
      536870912) - 0)) +
    round32 (round32 (0 - 0) * round32 (0 - 0)))) = 16106127 / 536870912
  rw [hdx, hdy, hsx, hsy, hsm, hv]

theorem assigned_getElem? (fl : FloatOps R) (k : KMeans R) (n : Nat) (p : Point R)
    (hp : k.points[n]? = some p) :
    (assigned fl k k.points)[n]? =
      some { p with cluster_id := closest_index fl k.clusters p } := by
  simp [assigned, hp]

/-- C1: with at least one cluster and every cluster id equal to its index,
`recalculate_clusters` returns, keeps the number of points, and the populations of all
clusters add up to the number of points (for every `float` arithmetic). -/
theorem population_conservation (fl : FloatOps R) (k : KMeans R)
    (hne : k.clusters ≠ []) (hid : ids_are_indices k.clusters) :
    ∃ k', recalculate_clusters fl k = some k' ∧ k'.points.length = k.points.length ∧
      (k'.clusters.map fun c => c.pop).sum = k'.points.length := by
  obtain ⟨cs', _, hrec, _, _, hsum, _⟩ := recalculate_clusters_eq fl k hne hid
  refine ⟨_, hrec, by simp [assigned], ?_⟩
  have hmap : ((divide_clusters fl cs').map fun c => c.pop) = cs'.map fun c => c.pop := by
    simp [divide_clusters, Function.comp_def, divide_cluster_pop]
  simp only [hmap, hsum, assigned, List.length_map]

/-- C2: with at least one cluster and every cluster id equal to its index,
`recalculate_clusters` returns a model with as many points and clusters as before, every
point keeps its coordinates and carries the index of an existing cluster, every cluster's
`pop` is the number of points whose `cluster_id` is the cluster's index, and when `pop > 0`
its `mean.x` and `mean.y` are the `float` sums of the `x` and `y` coordinates of those
points divided in `float` by `float(pop)`; read as exact numbers (nothing rounded) that is
the sum of the coordinates divided by `pop`. -/
theorem mean_correctness (fl : FloatOps R) (k : KMeans R)
    (hne : k.clusters ≠ []) (hid : ids_are_indices k.clusters) :
    ∃ k', recalculate_clusters fl k = some k' ∧
      k'.points.length = k.points.length ∧ k'.clusters.length = k.clusters.length ∧
      (∀ (n : Nat) (p : Point R), k.points[n]? = some p →
        ∃ p', k'.points[n]? = some p' ∧ p'.x = p.x ∧ p'.y = p.y ∧
          p'.cluster_id < k.clusters.length) ∧
      ∀ (i : Nat) (c : Cluster R), k'.clusters[i]? = some c →
        c.id = i ∧
        c.pop = (k'.points.filter fun p => decide (p.cluster_id = i)).length ∧
        (0 < c.pop →
          c.mean.x = fl.rnd (fsum fl 0 ((k'.points.filter fun p => decide (p.cluster_id = i)).map
            fun p => p.x) / fl.rnd (c.pop : R)) ∧
          c.mean.y = fl.rnd (fsum fl 0 ((k'.points.filter fun p => decide (p.cluster_id = i)).map
            fun p => p.y) / fl.rnd (c.pop : R)) ∧
          ((∀ x, fl.rnd x = x) →
            c.mean.x = ((k'.points.filter fun p => decide (p.cluster_id = i)).map
              fun p => p.x).sum / (c.pop : R) ∧
            c.mean.y = ((k'.points.filter fun p => decide (p.cluster_id = i)).map
              fun p => p.y).sum / (c.pop : R))) := by
  obtain ⟨cs', _, hrec, hlen, hids, _, hper⟩ := recalculate_clusters_eq fl k hne hid
  refine ⟨_, hrec, by simp [assigned], by simp [divide_clusters, hlen], ?_, ?_⟩
  · intro n p hp
    exact ⟨_, assigned_getElem? fl k n p hp, rfl, rfl, closest_index_lt fl k.clusters p hne⟩
  · intro i c hc
    simp only [divide_clusters, List.getElem?_map, Option.map_eq_some'] at hc
    obtain ⟨c0, hc0, rfl⟩ := hc
    obtain ⟨hpop, hx, hy⟩ := hper i c0 hc0
    have hid' : ids_are_indices cs' := ids_of_map_eq _ _ hids hid
    refine ⟨by rw [divide_cluster_id]; exact id_of_getElem? cs' hid' i c0 hc0,
      by rw [divide_cluster_pop]; exact hpop, ?_⟩
    intro hpos
    rw [divide_cluster_pop] at hpos ⊢
    have hnz : c0.pop ≠ 0 := by omega
    have hmx : (divide_cluster fl c0).mean.x = fl.rnd (c0.mean.x / fl.rnd (c0.pop : R)) := by
      simp [divide_cluster, hnz]
    have hmy : (divide_cluster fl c0).mean.y = fl.rnd (c0.mean.y / fl.rnd (c0.pop : R)) := by
      simp [divide_cluster, hnz]
    refine ⟨by rw [hmx, hx], by rw [hmy, hy], ?_⟩
    intro hexact
    rw [hmx, hmy, hx, hy, fsum_exact fl hexact, fsum_exact fl hexact, hexact, hexact, hexact]
    simp

/-- C10: with at least one cluster and every cluster id equal to its index,
`recalculate_clusters` returns a model with as many points and clusters as before, each
cluster keeps its index and id, and a cluster whose index is the `cluster_id` of no point
has `pop = 0` and mean `(0, 0)`, whatever its mean was before (for every `float`
arithmetic). -/
theorem empty_cluster_reset (fl : FloatOps R) (k : KMeans R)
    (hne : k.clusters ≠ []) (hid : ids_are_indices k.clusters) :
    ∃ k', recalculate_clusters fl k = some k' ∧
      k'.points.length = k.points.length ∧ k'.clusters.length = k.clusters.length ∧
      (∀ (i : Nat) (c0 : Cluster R), k.clusters[i]? = some c0 →
        ∃ c, k'.clusters[i]? = some c ∧ c.id = c0.id ∧
          ((∀ p ∈ k'.points, p.cluster_id ≠ i) → c.pop = 0 ∧ c.mean.x = 0 ∧ c.mean.y = 0)) ∧
      ∀ (i : Nat) (c : Cluster R), k'.clusters[i]? = some c →
        (∀ p ∈ k'.points, p.cluster_id ≠ i) → c.pop = 0 ∧ c.mean.x = 0 ∧ c.mean.y = 0 := by
  obtain ⟨cs', _, hrec, hlen, hids, _, hper⟩ := recalculate_clusters_eq fl k hne hid
  have hreset : ∀ (i : Nat) (c : Cluster R), (divide_clusters fl cs')[i]? = some c →
      (∀ p ∈ assigned fl k k.points, p.cluster_id ≠ i) →
      c.pop = 0 ∧ c.mean.x = 0 ∧ c.mean.y = 0 := by
    intro i c hc hnone
    simp only [divide_clusters, List.getElem?_map, Option.map_eq_some'] at hc
    obtain ⟨c0, hc0, rfl⟩ := hc
    obtain ⟨hpop, hx, hy⟩ := hper i c0 hc0
    have hfil : ((assigned fl k k.points).filter fun p => decide (p.cluster_id = i)) = [] := by
      rw [List.filter_eq_nil_iff]
      intro p hp
      simpa using hnone p hp
    rw [hfil] at hpop hx hy
    simp only [List.length_nil, List.map_nil, fsum, List.foldl_nil] at hpop hx hy
    simp [divide_cluster, hpop, hx, hy]
  have hlen2 : (divide_clusters fl cs').length = k.clusters.length := by
    simp [divide_clusters, hlen]
  refine ⟨_, hrec, by simp [assigned], hlen2, ?_, hreset⟩
  intro i c0 hc0
  have hi : i < (divide_clusters fl cs').length := by
    rw [hlen2]
    by_contra hn
    rw [List.getElem?_eq_none (by omega)] at hc0
    cases hc0
  have hget := List.getElem?_eq_getElem hi
  generalize (divide_clusters fl cs')[i] = c at hget
  have hidk : c0.id = i := id_of_getElem? k.clusters hid i c0 hc0
  have hid' : ids_are_indices (divide_clusters fl cs') := by
    apply ids_of_map_eq _ _ _ hid
    simp only [divide_clusters, List.map_map, Function.comp_def, divide_cluster_id, hids]
  exact ⟨c, hget, by rw [hidk]; exact id_of_getElem? _ hid' i c hget, hreset i c hget⟩

/-- C4 (amended): with at least one cluster and every cluster id equal to its index,
`recalculate_clusters` returns and leaves in each point (coordinates unchanged) the smallest
index whose distance to the point, as the code computes it in `float` arithmetic from the
means held before the call, is minimal: no cluster has a smaller computed distance and
every cluster at a smaller index has a strictly larger one. -/
theorem assignment_first_minimum (fl : FloatOps R) (k : KMeans R)
    (hne : k.clusters ≠ []) (hid : ids_are_indices k.clusters) :
    ∃ k', recalculate_clusters fl k = some k' ∧
      k'.points.length = k.points.length ∧ k'.clusters.length = k.clusters.length ∧
      ∀ (n : Nat) (p : Point R), k.points[n]? = some p →
        ∃ p' c, k'.points[n]? = some p' ∧ p'.x = p.x ∧ p'.y = p.y ∧
          k.clusters[p'.cluster_id]? = some c ∧
          (∀ (j : Nat) (c' : Cluster R), k.clusters[j]? = some c' →
            distance fl c.mean.x c.mean.y p.x p.y ≤
              distance fl c'.mean.x c'.mean.y p.x p.y) ∧
          (∀ (j : Nat) (c' : Cluster R), j < p'.cluster_id → k.clusters[j]? = some c' →
            distance fl c.mean.x c.mean.y p.x p.y <
              distance fl c'.mean.x c'.mean.y p.x p.y) := by
  obtain ⟨cs', _, hrec, hlen, _, _, _⟩ := recalculate_clusters_eq fl k hne hid
  refine ⟨_, hrec, by simp [assigned], by simp [divide_clusters, hlen], ?_⟩
  intro n p hp
  obtain ⟨c, hc, hle, hlt⟩ := closest_index_spec fl k.clusters p hne
  exact ⟨{ p with cluster_id := closest_index fl k.clusters p }, c,
    assigned_getElem? fl k n p hp, rfl, rfl, hc, hle, hlt⟩

/-- C3 (amended): with at least one cluster and every cluster id equal to its index,
`recalculate_clusters` returns a model with as many points and clusters as before, and every
point (coordinates unchanged) is, by the distance the code computes in `float` arithmetic,
at least as near to the mean its cluster had before the call as to the mean any cluster had
before the call. -/
theorem assignment_nearest_before (fl : FloatOps R) (k : KMeans R)
    (hne : k.clusters ≠ []) (hid : ids_are_indices k.clusters) :
    ∃ k', recalculate_clusters fl k = some k' ∧
      k'.points.length = k.points.length ∧ k'.clusters.length = k.clusters.length ∧
      ∀ (n : Nat) (p : Point R), k.points[n]? = some p →
        ∃ p' a, k'.points[n]? = some p' ∧ p'.x = p.x ∧ p'.y = p.y ∧
          k.clusters[p'.cluster_id]? = some a ∧
          ∀ c ∈ k.clusters, distance fl a.mean.x a.mean.y p.x p.y ≤
            distance fl c.mean.x c.mean.y p.x p.y := by
  obtain ⟨cs', _, hrec, hlen, _, _, _⟩ := recalculate_clusters_eq fl k hne hid
  refine ⟨_, hrec, by simp [assigned], by simp [divide_clusters, hlen], ?_⟩
  intro n p hp
  obtain ⟨a, ha, hle, _⟩ := closest_index_spec fl k.clusters p hne
  refine ⟨{ p with cluster_id := closest_index fl k.clusters p }, a,
    assigned_getElem? fl k n p hp, rfl, rfl, ha, ?_⟩
  intro c hc
  obtain ⟨j, hj⟩ := List.getElem?_of_mem hc
  exact hle j c hj

theorem erase_points_around_filter (fl : FloatOps R) (k : KMeans R) (x y : R) :
    (erase_points_around fl k x y).points =
      k.points.filter (fun pt => decide (¬ distance fl x y pt.x pt.y < fl.rnd (3 / 100))) := by
  simp only [erase_points_around, erase_remove_if, erase_radius]
  congr 1
  funext pt
  rw [decide_not]

/-- C5 (amended): `erase_points_around` keeps exactly the points whose distance to `(x, y)`,
as the code computes it in `float` arithmetic, is not below the `float` literal `0.03f`, in
their original order: no kept point has a computed distance below `0.03f`, every point
with a computed distance of at least `0.03f` occurs as often as before, the kept points are
a sublist of the old ones, and the clusters are untouched. -/
theorem erase_points_around_spec (fl : FloatOps R) (k : KMeans R) (x y : R) :
    (erase_points_around fl k x y).points =
        k.points.filter (fun pt => decide (¬ distance fl x y pt.x pt.y < fl.rnd (3 / 100))) ∧
      (∀ pt ∈ (erase_points_around fl k x y).points,
        ¬ distance fl x y pt.x pt.y < fl.rnd (3 / 100)) ∧
      (∀ pt : Point R, fl.rnd (3 / 100) ≤ distance fl x y pt.x pt.y →
        (erase_points_around fl k x y).points.count pt = k.points.count pt) ∧
      (erase_points_around fl k x y).points.Sublist k.points ∧
      (erase_points_around fl k x y).clusters = k.clusters := by
  have hpts := erase_points_around_filter fl k x y
  refine ⟨hpts, ?_, ?_, ?_, rfl⟩
  · intro pt hpt
    rw [hpts, List.mem_filter] at hpt
    simpa using hpt.2
  · intro pt hpt
    rw [hpts]
    exact List.count_filter (by simpa using hpt)
  · rw [hpts]
    exact List.filter_sublist _

theorem single_point_two_clusters (fl : FloatOps R) (p : Point R) (c0 c1 : Cluster R)
    (h0 : c0.id = 0) (h1 : c1.id = 1)
    (hlt : distance fl c1.mean.x c1.mean.y p.x p.y < distance fl c0.mean.x c0.mean.y p.x p.y) :
    ∃ k', recalculate_clusters fl ⟨[p], [c0, c1]⟩ = some k' ∧
      (k'.points.map fun q => q.cluster_id) = [1] := by
  have hid : ids_are_indices (⟨[p], [c0, c1]⟩ : KMeans R).clusters := by
    simp [ids_are_indices, h0, h1, List.range_succ]
  obtain ⟨cs', _, hrec, _⟩ := recalculate_clusters_eq fl ⟨[p], [c0, c1]⟩ (by simp) hid
  refine ⟨_, hrec, ?_⟩
  simp [assigned, closest_index, dist_to, min_element, min_element_loop, hlt]

theorem axis_distances (fl : FloatOps R)
    (hint : ∀ z : ℤ, |z| < 2 ^ 24 → fl.rnd (z : R) = z)
    (e4 : fl.sqrt 4 = 2) (e49 : fl.sqrt 49 = 7) :
    distance fl 4 0 6 0 = 2 ∧ distance fl 13 0 6 0 = 7 := by
  have r0 : fl.rnd 0 = 0 := by simpa using hint 0 (by norm_num)
  have r2 : fl.rnd 2 = 2 := by simpa using hint 2 (by norm_num)
  have r4 : fl.rnd 4 = 4 := by simpa using hint 4 (by norm_num)
  have r49 : fl.rnd 49 = 49 := by simpa using hint 49 (by norm_num)
  have rm7 : fl.rnd (-7) = -7 := by simpa using hint (-7) (by norm_num)
  constructor
  · norm_num [distance, sqr, r0, r2, r4, e4]
  · norm_num [distance, sqr, r0, rm7, r49, e49]

theorem float_average_example (fl : FloatOps R)
    (hint : ∀ z : ℤ, |z| < 2 ^ 24 → fl.rnd (z : R) = z) :
    fl.rnd (fsum fl 0 [0, 0, 1] / fl.rnd ((3 : ℕ) : R)) = fl.rnd (1 / 3) ∧
      fl.rnd (fsum fl 0 [0, 1, 0] / fl.rnd ((3 : ℕ) : R)) = fl.rnd (1 / 3) ∧
      fl.rnd (fsum fl 0 [1] / fl.rnd ((1 : ℕ) : R)) = 1 := by
  have r0 : fl.rnd 0 = 0 := by simpa using hint 0 (by norm_num)
  have r1 : fl.rnd 1 = 1 := by simpa using hint 1 (by norm_num)
  have r3 : fl.rnd 3 = 3 := by simpa using hint 3 (by norm_num)
  refine ⟨?_, ?_, ?_⟩
  · norm_num [fsum, r0, r1, r3]
  · norm_num [fsum, r0, r1, r3]
  · norm_num [fsum, r0, r1]

theorem ids_are_indices_iff (cs : List (Cluster R)) :
    ids_are_indices cs ↔ ∀ (i : Nat) (c : Cluster R), cs[i]? = some c → c.id = i := by
  constructor
  · exact fun h i c hc => id_of_getElem? cs h i c hc
  · intro h
    apply List.ext_getElem?
    intro i
    rcases Nat.lt_or_ge i cs.length with hi | hi
    · have hget := List.getElem?_eq_getElem hi
      rw [List.getElem?_map, hget, List.getElem?_range hi, Option.map_some',
        h i _ hget]
    · rw [List.getElem?_eq_none (by simpa using hi),
        List.getElem?_eq_none (by simpa using hi)]

/-- C8: after `KMeans k{point_count, cluster_count}` with `point_count ≥ 1` (which returns)
and any sequence of events of the main loop, every cluster's `id` equals its index, and the
next event is handled without an out-of-range access (for the Space key, provided a cluster
exists); `add_cluster` appends one cluster with mean `(0, 0)`, `pop = 0` and
`id = new size - 1`; `remove_last_cluster` drops only the last cluster and changes nothing
when there is none (for every `float` arithmetic). -/
theorem cluster_ids_invariant (fl : FloatOps R) (point_count cluster_count : Nat) (g : Gen)
    (hpc : 1 ≤ point_count) :
    (∃ r, KMeans.ctor fl point_count cluster_count g = some r) ∧
      (∀ (evs : List (Event R)) (s : App R),
        run_main fl point_count cluster_count g evs = some s →
          (∀ (i : Nat) (c : Cluster R), s.k.clusters[i]? = some c → c.id = i) ∧
          ∀ ev : Event R, (ev = Event.KeySpace → s.k.clusters ≠ []) →
            ∃ s', handle_event fl ev s = some s') ∧
      (∀ k : KMeans R, ∃ c, (add_cluster k).clusters = k.clusters ++ [c] ∧
        c.mean.x = 0 ∧ c.mean.y = 0 ∧ c.pop = 0 ∧
        c.id = (add_cluster k).clusters.length - 1 ∧ (add_cluster k).points = k.points) ∧
      (∀ k : KMeans R, (remove_last_cluster k).clusters = k.clusters.dropLast ∧
        (remove_last_cluster k).points = k.points ∧
        (k.clusters = [] → remove_last_cluster k = k)) := by
  obtain ⟨r, hr, _, _, hids, _⟩ := ctor_spec fl point_count cluster_count g hpc
  refine ⟨⟨r, hr⟩, ?_, ?_, ?_⟩
  · intro evs s hs
    simp only [run_main, hr] at hs
    have hinv := run_events_ids fl evs ⟨r.1, r.2, false⟩ s hids hs
    exact ⟨(ids_are_indices_iff _).mp hinv, fun ev hev => handle_event_progress fl ev s hinv hev⟩
  · intro k
    exact ⟨⟨Point.mk2 0 0, 0, k.clusters.length⟩, rfl, rfl, rfl, rfl, by simp [add_cluster], rfl⟩
  · intro k
    refine ⟨?_, ?_, ?_⟩
    · unfold remove_last_cluster
      split
      · simp [List.dropLast_eq_take]
      · rename_i h
        have : k.clusters = [] := by simpa using h
        simp [this]
    · unfold remove_last_cluster
      split <;> rfl
    · intro h
      simp [remove_last_cluster, h]

theorem run_three_down_space (fl : FloatOps R) (g : Gen) (p : Point R) (ps : List (Point R))
    (a b c : Cluster R) :
    run_events fl [Event.KeyDown, Event.KeyDown, Event.KeyDown, Event.KeySpace]
      ⟨⟨p :: ps, [a, b, c]⟩, g, false⟩ = none := by
  simp [run_events, handle_event, remove_last_cluster, recalculate_clusters_no_cluster]

/-- C6 (failing input): with no cluster and at least one point `recalculate_clusters` runs
into undefined behaviour, because the first `find_closest_cluster` dereferences
`clusters.begin()` of an empty vector; the program reaches that state from its start
`KMeans k{8000, 3}` by the Down key three times and then the Space key.  Only with no point
at all is the call harmless. -/
theorem recompute_without_clusters (fl : FloatOps R) :
    (∀ (p : Point R) (ps : List (Point R)), recalculate_clusters fl ⟨p :: ps, []⟩ = none) ∧
      (∀ g : Gen, run_main fl 8000 3 g
        [Event.KeyDown, Event.KeyDown, Event.KeyDown, Event.KeySpace] = none) ∧
      recalculate_clusters fl (⟨[], []⟩ : KMeans R) = some ⟨[], []⟩ := by
  refine ⟨recalculate_clusters_no_cluster fl, ?_, rfl⟩
  intro g
  obtain ⟨r, hr, hpl, hcl, _, _⟩ := ctor_spec fl 8000 3 g (by norm_num)
  obtain ⟨⟨pts, cs⟩, g'⟩ := r
  simp only at hpl hcl
  simp only [run_main, hr]
  match cs, hcl with
  | [a, b, c], _ =>
    match pts, hpl with
    | p :: ps, _ => exact run_three_down_space fl g' p ps a b c

/-- C9 (amended): when `point_count ≥ 1` or `cluster_count = 0`, the constructor returns with
exactly `point_count` points and `cluster_count` clusters, every cluster's mean has the
coordinates of one of the points just created, and with `point_count ≥ 1` every index the
distribution can draw is a valid index into the points (for every `float` arithmetic). -/
theorem ctor_picks_points (fl : FloatOps R) (point_count cluster_count : Nat) (g : Gen)
    (h : 1 ≤ point_count ∨ cluster_count = 0) :
    ∃ r, KMeans.ctor fl point_count cluster_count g = some r ∧
      r.1.points.length = point_count ∧ r.1.clusters.length = cluster_count ∧
      (∀ c ∈ r.1.clusters, ∃ p ∈ r.1.points, c.mean.x = p.x ∧ c.mean.y = p.y) ∧
      (1 ≤ point_count → ∀ g' : Gen,
        (uniform_int_distribution 0 ((point_count + 2 ^ 64 - 1) % 2 ^ 64) g').1 <
          point_count) := by
  rcases h with h | h
  · obtain ⟨r, hr, hpl, hcl, _, hmean⟩ := ctor_spec fl point_count cluster_count g h
    exact ⟨r, hr, hpl, hcl, fun c hc => ⟨c.mean, hmean c hc, rfl, rfl⟩,
      fun hp g' => uniform_int_lt point_count g' hp⟩
  · subst h
    refine ⟨(⟨(randomize_range fl (Point.mk2 (0 : R) 0) (Point.mk2 1 1)
        (List.replicate point_count Point.zero) g).1, []⟩,
      (randomize_range fl (Point.mk2 (0 : R) 0) (Point.mk2 1 1)
        (List.replicate point_count Point.zero) g).2), ?_, ?_, rfl, ?_, ?_⟩
    · simp [KMeans.ctor, randomize_points, init_clusters]
    · simp [randomize_range_length]
    · intro c hc
      simp at hc
    · intro hp g'
      exact uniform_int_lt point_count g' hp


-- ---------------------------------------------------------------------------
-- Concrete runs in binary32
-- ---------------------------------------------------------------------------

theorem binary32_int (z : ℤ) (hz : |z| < 2 ^ 24) : binary32.rnd (z : ℚ) = z :=
  round32_intCast z hz

theorem binary32_sqrt_zero_lt_two : binary32.sqrt 0 < binary32.sqrt 2 := by
  have h0 : sqrt32 0 = 0 := by simp [sqrt32]
  show sqrt32 0 < sqrt32 2
  rw [h0, sqrt32_values.1]
  norm_num

theorem example_model_hyps :
    (example_model (R := ℚ)).clusters ≠ [] ∧ ids_are_indices (example_model (R := ℚ)).clusters :=
  ⟨by simp [example_model], by simp [ids_are_indices, example_model, List.range_succ]⟩

theorem drift_model_hyps :
    (drift_model (R := ℚ)).clusters ≠ [] ∧ ids_are_indices (drift_model (R := ℚ)).clusters :=
  ⟨by simp [drift_model], by simp [ids_are_indices, drift_model, List.range_succ]⟩

theorem drift_model_binary32 :
    recalculate_clusters binary32 (drift_model (R := ℚ)) =
      some ⟨[⟨4, 0, 0⟩, ⟨6, 0, 1⟩, ⟨20, 0, 1⟩], [⟨⟨4, 0, 0⟩, 1, 0⟩, ⟨⟨13, 0, 0⟩, 2, 1⟩]⟩ :=
  drift_model_recompute binary32 binary32_int sqrt32_values.2.2.1 sqrt32_values.2.2.2.1
    sqrt32_values.2.2.2.2.2.1 sqrt32_values.2.2.2.2.2.2

theorem example_model_binary32 :
    recalculate_clusters binary32 (example_model (R := ℚ)) =
      some ⟨[⟨0, 0, 0⟩, ⟨0, 1, 0⟩, ⟨1, 0, 0⟩, ⟨1, 1, 1⟩],
        [⟨⟨11184811 / 33554432, 11184811 / 33554432, 0⟩, 3, 0⟩, ⟨⟨1, 1, 0⟩, 1, 1⟩]⟩ := by
  have h := example_model_recompute binary32 binary32_int binary32_sqrt_zero_lt_two
  have h3 : binary32.rnd (1 / 3) = 11184811 / 33554432 := round32_third
  rw [h3] at h
  exact h

/-- C1 (witness): the example scenario in binary32 satisfies the hypotheses and its
populations add up. -/
theorem population_conservation_witness :
    (example_model (R := ℚ)).clusters ≠ [] ∧ ids_are_indices (example_model (R := ℚ)).clusters ∧
      ∃ k', recalculate_clusters binary32 (example_model (R := ℚ)) = some k' ∧
        k'.points.length = (example_model (R := ℚ)).points.length ∧
        (k'.clusters.map fun c => c.pop).sum = k'.points.length :=
  ⟨example_model_hyps.1, example_model_hyps.2,
    population_conservation binary32 example_model example_model_hyps.1 example_model_hyps.2⟩

/-- C2 (witness): the three-point model on a line, read in exact arithmetic, satisfies the
hypotheses of the mean property. -/
theorem mean_correctness_witness :
    (drift_model (R := ℚ)).clusters ≠ [] ∧ ids_are_indices (drift_model (R := ℚ)).clusters ∧
      ∃ k', recalculate_clusters (exact_arith sqrt32) (drift_model (R := ℚ)) = some k' ∧
        k'.points.length = (drift_model (R := ℚ)).points.length ∧
        k'.clusters.length = (drift_model (R := ℚ)).clusters.length ∧
        (∀ (n : Nat) (p : Point ℚ), (drift_model (R := ℚ)).points[n]? = some p →
          ∃ p', k'.points[n]? = some p' ∧ p'.x = p.x ∧ p'.y = p.y ∧
            p'.cluster_id < (drift_model (R := ℚ)).clusters.length) ∧
        ∀ (i : Nat) (c : Cluster ℚ), k'.clusters[i]? = some c →
          c.id = i ∧
          c.pop = (k'.points.filter fun p => decide (p.cluster_id = i)).length ∧
          (0 < c.pop →
            c.mean.x = (exact_arith sqrt32).rnd (fsum (exact_arith sqrt32) 0
              ((k'.points.filter fun p => decide (p.cluster_id = i)).map fun p => p.x) /
                (exact_arith sqrt32).rnd (c.pop : ℚ)) ∧
            c.mean.y = (exact_arith sqrt32).rnd (fsum (exact_arith sqrt32) 0
              ((k'.points.filter fun p => decide (p.cluster_id = i)).map fun p => p.y) /
                (exact_arith sqrt32).rnd (c.pop : ℚ)) ∧
            ((∀ x, (exact_arith sqrt32).rnd x = x) →
              c.mean.x = ((k'.points.filter fun p => decide (p.cluster_id = i)).map
                fun p => p.x).sum / (c.pop : ℚ) ∧
              c.mean.y = ((k'.points.filter fun p => decide (p.cluster_id = i)).map
                fun p => p.y).sum / (c.pop : ℚ))) :=
  ⟨drift_model_hyps.1, drift_model_hyps.2,
    mean_correctness (exact_arith sqrt32) drift_model drift_model_hyps.1 drift_model_hyps.2⟩

/-- C10 (witness): a model whose second cluster attracts no point satisfies the hypotheses. -/
theorem empty_cluster_reset_witness :
    (⟨[⟨0, 0, 0⟩], [⟨⟨0, 0, 0⟩, 0, 0⟩, ⟨⟨5, 5, 0⟩, 0, 1⟩]⟩ : KMeans ℚ).clusters ≠ [] ∧
      ids_are_indices (⟨[⟨0, 0, 0⟩], [⟨⟨0, 0, 0⟩, 0, 0⟩, ⟨⟨5, 5, 0⟩, 0, 1⟩]⟩ : KMeans ℚ).clusters ∧
      ∃ k', recalculate_clusters binary32
          (⟨[⟨0, 0, 0⟩], [⟨⟨0, 0, 0⟩, 0, 0⟩, ⟨⟨5, 5, 0⟩, 0, 1⟩]⟩ : KMeans ℚ) = some k' ∧
        k'.points.length = 1 ∧ k'.clusters.length = 2 ∧
        (∀ (i : Nat) (c0 : Cluster ℚ),
          ([⟨⟨0, 0, 0⟩, 0, 0⟩, ⟨⟨5, 5, 0⟩, 0, 1⟩] : List (Cluster ℚ))[i]? = some c0 →
          ∃ c, k'.clusters[i]? = some c ∧ c.id = c0.id ∧
            ((∀ p ∈ k'.points, p.cluster_id ≠ i) → c.pop = 0 ∧ c.mean.x = 0 ∧ c.mean.y = 0)) ∧
        ∀ (i : Nat) (c : Cluster ℚ), k'.clusters[i]? = some c →
          (∀ p ∈ k'.points, p.cluster_id ≠ i) → c.pop = 0 ∧ c.mean.x = 0 ∧ c.mean.y = 0 :=
  ⟨by simp, by simp [ids_are_indices, List.range_succ],
    empty_cluster_reset binary32 _ (by simp) (by simp [ids_are_indices, List.range_succ])⟩

/-- C4 (witness): the example scenario in binary32 satisfies the hypotheses of the
first-minimum property. -/
theorem assignment_first_minimum_witness :
    (example_model (R := ℚ)).clusters ≠ [] ∧ ids_are_indices (example_model (R := ℚ)).clusters ∧
      ∃ k', recalculate_clusters binary32 (example_model (R := ℚ)) = some k' ∧
        k'.points.length = (example_model (R := ℚ)).points.length ∧
        k'.clusters.length = (example_model (R := ℚ)).clusters.length ∧
        ∀ (n : Nat) (p : Point ℚ), (example_model (R := ℚ)).points[n]? = some p →
          ∃ p' c, k'.points[n]? = some p' ∧ p'.x = p.x ∧ p'.y = p.y ∧
            (example_model (R := ℚ)).clusters[p'.cluster_id]? = some c ∧
            (∀ (j : Nat) (c' : Cluster ℚ), (example_model (R := ℚ)).clusters[j]? = some c' →
              distance binary32 c.mean.x c.mean.y p.x p.y ≤
                distance binary32 c'.mean.x c'.mean.y p.x p.y) ∧
            (∀ (j : Nat) (c' : Cluster ℚ), j < p'.cluster_id →
              (example_model (R := ℚ)).clusters[j]? = some c' →
              distance binary32 c.mean.x c.mean.y p.x p.y <
                distance binary32 c'.mean.x c'.mean.y p.x p.y) :=
  ⟨example_model_hyps.1, example_model_hyps.2,
    assignment_first_minimum binary32 example_model example_model_hyps.1 example_model_hyps.2⟩

/-- C4 (counterexample): in `tie_model` the two means are at exactly the same Euclidean
distance from the point, so the smallest index of minimal Euclidean distance is 0; the
distances the code computes in binary32 are `6282569 / 2^24` and `12565137 / 2^25`, the
second one smaller, and the point is assigned to cluster 1. -/
theorem assignment_tie_broken_by_rounding :
    (∃ k', recalculate_clusters binary32 (tie_model (R := ℚ)) = some k' ∧
        (k'.points.map fun p => p.cluster_id) = [1]) ∧
      ((0 : ℚ) - 2104939 / 8388608) ^ 2 + (0 - 582929 / 2097152) ^ 2 =
        (0 - 1183171 / 8388608) ^ 2 + (0 - 363743 / 1048576) ^ 2 ∧
      distance binary32 (2104939 / 8388608) (582929 / 2097152) 0 0 = 6282569 / 16777216 ∧
      distance binary32 (1183171 / 8388608) (363743 / 1048576) 0 0 = 12565137 / 33554432 := by
  refine ⟨?_, by norm_num, tie_distance_first, tie_distance_second⟩
  apply single_point_two_clusters binary32 ⟨0, 0, 0⟩
    ⟨⟨2104939 / 8388608, 582929 / 2097152, 0⟩, 0, 0⟩
    ⟨⟨1183171 / 8388608, 363743 / 1048576, 0⟩, 0, 1⟩ rfl rfl
  show distance binary32 (1183171 / 8388608) (363743 / 1048576) 0 0 <
    distance binary32 (2104939 / 8388608) (582929 / 2097152) 0 0
  rw [tie_distance_first, tie_distance_second]
  norm_num

/-- C3 (counterexample): in the three-point model on a line, run in binary32, the point at
`x = 6` is assigned to cluster 1, whose mean after the call is `x = 13` at distance 7, while
the mean of cluster 0 after the call is `x = 4` at distance 2 (computed and exact
distances agree here). -/
theorem assignment_not_nearest_after :
    ∃ k', recalculate_clusters binary32 (drift_model (R := ℚ)) = some k' ∧
      ∃ p ∈ k'.points, ∃ a c, k'.clusters[p.cluster_id]? = some a ∧ c ∈ k'.clusters ∧
        distance binary32 c.mean.x c.mean.y p.x p.y <
          distance binary32 a.mean.x a.mean.y p.x p.y ∧
        (p.x - c.mean.x) ^ 2 + (p.y - c.mean.y) ^ 2 <
          (p.x - a.mean.x) ^ 2 + (p.y - a.mean.y) ^ 2 := by
  refine ⟨_, drift_model_binary32, ⟨6, 0, 1⟩, by simp,
    ⟨⟨13, 0, 0⟩, 2, 1⟩, ⟨⟨4, 0, 0⟩, 1, 0⟩, by simp, by simp, ?_, by norm_num⟩
  obtain ⟨d1, d2⟩ := axis_distances binary32 binary32_int sqrt32_values.2.1
    sqrt32_values.2.2.2.2.1
  show distance binary32 4 0 6 0 < distance binary32 13 0 6 0
  rw [d1, d2]
  norm_num

/-- C3 (witness): the three-point model on a line in binary32 satisfies the hypotheses of
the amended property. -/
theorem assignment_nearest_before_witness :
    (drift_model (R := ℚ)).clusters ≠ [] ∧ ids_are_indices (drift_model (R := ℚ)).clusters ∧
      ∃ k', recalculate_clusters binary32 (drift_model (R := ℚ)) = some k' ∧
        k'.points.length = (drift_model (R := ℚ)).points.length ∧
        k'.clusters.length = (drift_model (R := ℚ)).clusters.length ∧
        ∀ (n : Nat) (p : Point ℚ), (drift_model (R := ℚ)).points[n]? = some p →
          ∃ p' a, k'.points[n]? = some p' ∧ p'.x = p.x ∧ p'.y = p.y ∧
            (drift_model (R := ℚ)).clusters[p'.cluster_id]? = some a ∧
            ∀ c ∈ (drift_model (R := ℚ)).clusters,
              distance binary32 a.mean.x a.mean.y p.x p.y ≤
                distance binary32 c.mean.x c.mean.y p.x p.y :=
  ⟨drift_model_hyps.1, drift_model_hyps.2,
    assignment_nearest_before binary32 drift_model drift_model_hyps.1 drift_model_hyps.2⟩

/-- C5 (counterexample): around the origin, in binary32, the first two points of
`ring_model` are at exactly the same Euclidean distance, yet the first is kept and the
second erased; the third, `(0.03f, 0)`, is kept although its Euclidean distance
`0.03f = 16106127 / 2^29` is below `0.03`. -/
theorem erase_splits_equidistant_points :
    (erase_points_around binary32 (ring_model (R := ℚ)) 0 0).points =
        [⟨1003201 / 536870912, 16074853 / 536870912, 0⟩, ⟨16106127 / 536870912, 0, 0⟩] ∧
      ((1003201 : ℚ) / 536870912) ^ 2 + (16074853 / 536870912) ^ 2 =
        (1000409 / 536870912) ^ 2 + (16075027 / 536870912) ^ 2 ∧
      ((16106127 : ℚ) / 536870912) ^ 2 + 0 ^ 2 < (3 / 100) ^ 2 ∧
      binary32.rnd (3 / 100) = 16106127 / 536870912 := by
  have hr : binary32.rnd (3 / 100) = 16106127 / 536870912 := round32_radius
  refine ⟨?_, by norm_num, by norm_num, hr⟩
  rw [erase_points_around_filter, hr]
  simp only [ring_model, List.filter_cons, List.filter_nil, ring_distance_first,
    ring_distance_second, ring_distance_third]
  norm_num

/-- C7 (counterexample): in the example scenario, run in binary32, both tied points `(0,1)`
and `(1,0)` go to cluster 0, so cluster 0 holds three points and cluster 1 one, not two
each. -/
theorem example_scenario_not_two_two :
    ∃ k', recalculate_clusters binary32 (example_model (R := ℚ)) = some k' ∧
      (k'.points.map fun p => p.cluster_id) = [0, 0, 0, 1] ∧
      (k'.clusters.map fun c => c.pop) = [3, 1] :=
  ⟨_, example_model_binary32, rfl, rfl⟩

/-- C7 (amended): in the example scenario, run in binary32, `recalculate_clusters` assigns
`(0,0)`, `(0,1)` and `(1,0)` to cluster 0 and `(1,1)` to cluster 1; the populations 3 and 1
add up to 4; the mean of cluster 0 is `(11184811 / 2^25, 11184811 / 2^25)`, the `float`
quotient of the `float` sums `0 + 0 + 1` and `0 + 1 + 0` by `float(3)` (the binary32 value
nearest to `1/3`), and the mean of cluster 1 is `(1, 1)`. -/
theorem example_scenario :
    (∃ k', recalculate_clusters binary32 (example_model (R := ℚ)) = some k' ∧
        k'.points = [⟨0, 0, 0⟩, ⟨0, 1, 0⟩, ⟨1, 0, 0⟩, ⟨1, 1, 1⟩] ∧
        (k'.clusters.map fun c => c.pop) = [3, 1] ∧
        (k'.clusters.map fun c => c.pop).sum = 4 ∧
        (k'.clusters.map fun c => (c.mean.x, c.mean.y)) =
          [(11184811 / 33554432, 11184811 / 33554432), (1, 1)]) ∧
      binary32.rnd (fsum binary32 0 [0, 0, 1] / binary32.rnd ((3 : ℕ) : ℚ)) =
        11184811 / 33554432 ∧
      binary32.rnd (fsum binary32 0 [0, 1, 0] / binary32.rnd ((3 : ℕ) : ℚ)) =
        11184811 / 33554432 ∧
      binary32.rnd (fsum binary32 0 [1] / binary32.rnd ((1 : ℕ) : ℚ)) = 1 := by
  have h3 : binary32.rnd (1 / 3) = 11184811 / 33554432 := round32_third
  obtain ⟨a1, a2, a3⟩ := float_average_example binary32 binary32_int
  exact ⟨⟨_, example_model_binary32, rfl, rfl, rfl, rfl⟩, by rw [a1, h3], by rw [a2, h3], a3⟩

/-- C8 (witness): three points, two clusters, binary32 and the generator that counts its
draws. -/
theorem cluster_ids_invariant_witness :
    1 ≤ 3 ∧
      (∃ r, KMeans.ctor binary32 3 2 countingGen = some r) ∧
      (∀ (evs : List (Event ℚ)) (s : App ℚ),
        run_main binary32 3 2 countingGen evs = some s →
          (∀ (i : Nat) (c : Cluster ℚ), s.k.clusters[i]? = some c → c.id = i) ∧
          ∀ ev : Event ℚ, (ev = Event.KeySpace → s.k.clusters ≠ []) →
            ∃ s', handle_event binary32 ev s = some s') ∧
      (∀ k : KMeans ℚ, ∃ c, (add_cluster k).clusters = k.clusters ++ [c] ∧
        c.mean.x = 0 ∧ c.mean.y = 0 ∧ c.pop = 0 ∧
        c.id = (add_cluster k).clusters.length - 1 ∧ (add_cluster k).points = k.points) ∧
      (∀ k : KMeans ℚ, (remove_last_cluster k).clusters = k.clusters.dropLast ∧
        (remove_last_cluster k).points = k.points ∧
        (k.clusters = [] → remove_last_cluster k = k)) :=
  ⟨by decide, cluster_ids_invariant binary32 3 2 countingGen (by decide)⟩

/-- C9 (counterexample): with no point and one cluster the index is drawn from
`[0, 2^64 - 1]` and `points[j]` is read from an empty vector, so the constructor runs into
undefined behaviour instead of yielding a model. -/
theorem ctor_zero_points_one_cluster :
    KMeans.ctor binary32 0 1 countingGen = none ∧
      (0 + 2 ^ 64 - 1) % 2 ^ 64 = 2 ^ 64 - 1 :=
  ⟨ctor_no_points binary32 0 countingGen, by norm_num⟩

/-- C9 (witness): three points, two clusters, binary32 and the generator that counts its
draws. -/
theorem ctor_picks_points_witness :
    (1 ≤ 3 ∨ 2 = 0) ∧
      ∃ r, KMeans.ctor binary32 3 2 countingGen = some r ∧
        r.1.points.length = 3 ∧ r.1.clusters.length = 2 ∧
        (∀ c ∈ r.1.clusters, ∃ p ∈ r.1.points, c.mean.x = p.x ∧ c.mean.y = p.y) ∧
        (1 ≤ 3 → ∀ g' : Gen,
          (uniform_int_distribution 0 ((3 + 2 ^ 64 - 1) % 2 ^ 64) g').1 < 3) :=
  ⟨Or.inl (by decide), ctor_picks_points binary32 3 2 countingGen (Or.inl (by decide))⟩

end Proofs

end KMeansModel
